import Mathlib

/-!
FAME reference reader (`RefReader_istr.cpp`)

A shallow embedding of `readReference` and `isPrimaryHG`.

* `std::string` and `std::vector<char>` are lists of characters (`Str`).
* The file is the list of lines that successive `getline` calls deliver.
* `uint8_t chrIndex` and `uint32_t unIDCount` / `uint32_t pos` are natural
  numbers reduced `% 2^8` and `% 2^32` at every assignment.
* `std::unordered_map<uint8_t, std::string>` is an association list in which
  every key occurs at most once; `insert` is a no-op when the key is present.
* `readLine` and `struct CpG` live in `RefReader_istr.h`; the scanner is a
  parameter of the embedding.
* `std::cout` warnings, `readLine` invocations and `chrMap.insert` calls are
  recorded in an event trace so that statements can speak about them.
-/

namespace FAME

/-! ## The embedding of the source -/

/-- A `std::string` / `std::vector<char>`: the sequence of its characters. -/
abbrev Str := List Char

/-- Modelled from the spec: `struct CpG` is declared in `RefReader_istr.h`. The spec
describes an entry as the owning record's index and the 0-based offset of the `C`. -/
structure CpG where
  chrom : Nat
  pos : Nat
deriving DecidableEq, Repr

/-- The result of one `readLine` call: the four by-reference arguments after the call. -/
structure ScanResult where
  lastC : Bool
  cpgTab : List CpG
  cpgStartTab : List CpG
  seq : Str

/-- Modelled from the spec: `readLine` is declared in `RefReader_istr.h`. It is called as
`readLine(line, lastC, chrIndex, cpgTab, cpgStartTab, seq)` and, by the spec, appends to the
live buffer, reports new entries of the two tables and updates the carry flag. -/
abbrev Scanner := Str → Bool → Nat → List CpG → List CpG → Str → ScanResult

/-- Observable operations of a parse, in program order. -/
inductive Event where
  /-- The `WARNING: ... Renaming to ...` output (source lines 94-98): header text, new id. -/
  | warning (chrHeader chrID : Str)
  /-- A call of `readLine` (source line 113) with the by-value arguments it receives. -/
  | scan (line : Str) (lastC : Bool) (chrIndex : Nat)
  /-- A call of `chrMap.insert` (source line 104) with the pair it is given. -/
  | insert (key : Nat) (chrID : Str)
deriving DecidableEq, Repr

/-- The variables of `readReference` that live across loop iterations. -/
structure State where
  cpgTab : List CpG
  cpgStartTab : List CpG
  genSeq : List Str
  chrMap : List (Nat × Str)
  seq : Str
  chrIndex : Nat
  contFlag : Bool
  lastC : Bool
  unIDCount : Nat
  trace : List Event

/-- The value of `std::string::npos` (`size_t` of 64 bits). -/
def npos : Nat := 2 ^ 64 - 1

/-- The function `std::string::find_first_of`: index of the first character of `s` that
occurs in `set`, counted from `i`; `npos` when there is none. -/
def find_first_of_from (set : Str) : Str → Nat → Nat
  | [], _ => npos
  | c :: cs, i => if set.contains c then i else find_first_of_from set cs (i + 1)

/-- The call `s.find_first_of(set)`. -/
def find_first_of (s set : Str) : Nat := find_first_of_from set s 0

/-- The function `std::to_string` on an unsigned integer: its decimal numeral. -/
def to_string (n : Nat) : Str := Nat.toDigits 10 n

/-- The six names of `specialChromosomes` (source line 147). -/
def specialChromosomes : List Str :=
  ["chrX".toList, "chrY".toList, "chrM".toList, "chrMT".toList, "lambda".toList,
    "pUC19".toList]

/-- The function `isPrimaryHG` (source lines 135-154). -/
def isPrimaryHG (chrID : Str) : Bool :=
  if (List.range' 1 22).any (fun i => chrID == "chr".toList ++ to_string i) then true
  else if specialChromosomes.contains chrID then true
  else false

/-- The header test of source line 57: non-empty, first character `>`, more than one
character. -/
def isHeaderLine (line : Str) : Bool :=
  match line with
  | [] => false
  | c :: rest => c == '>' && !rest.isEmpty

/-- The text `chrHeader` of source line 74: the line without its first character. -/
def chrHeaderOf (line : Str) : Str := line.tail

/-- The value `pos` of source line 75: the `size_t` result narrowed to `uint32_t`. -/
def headerPos (chrHeader : Str) : Nat := find_first_of chrHeader [' ', '\t'] % 2 ^ 32

/-- The candidate identifier `chrID` of source line 76: `chrHeader.substr(0, pos)`. -/
def candidateID (line : Str) : Str := (chrHeaderOf line).take (headerPos (chrHeaderOf line))

/-- The uniqueness loop of source lines 90-101 over the entries of `chrMap`: at the first
entry whose value equals `chrID` the identifier is renamed, the counter is advanced, a
warning is printed and the loop is left. Returns the identifier, the counter and the
events. -/
def uniquify (chrHeader : Str) : List (Nat × Str) → Str → Nat → Str × Nat × List Event
  | [], chrID, unIDCount => (chrID, unIDCount, [])
  | chrP :: rest, chrID, unIDCount =>
    if chrP.2 == chrID then
      let chrID' := chrID ++ ['_'] ++ to_string unIDCount
      (chrID', (unIDCount + 1) % 2 ^ 32, [Event.warning chrHeader chrID'])
    else uniquify chrHeader rest chrID unIDCount

/-- The call `chrMap.insert(pair)`: nothing happens when the key is already present. -/
def mapInsert (m : List (Nat × Str)) (key : Nat) (v : Str) : List (Nat × Str) :=
  if m.any (fun p => p.1 == key) then m else m ++ [(key, v)]

/-- The lookup `chrMap.find(key)`. -/
def mapFind (m : List (Nat × Str)) (key : Nat) : Option Str :=
  (m.find? (fun p => p.1 == key)).map Prod.snd

/-- The flush of source lines 60-69: the live buffer moves into `genSeq`, the buffer and the
carry flag are reset. -/
def flushOnHeader (st : State) : State :=
  if st.contFlag then
    { st with genSeq := st.genSeq ++ [st.seq], seq := [], lastC := false }
  else st

/-- One iteration of the `while (getline(ifs, line))` loop (source lines 55-119). -/
def step (readLine : Scanner) (humanOptFlag : Bool) (st : State) (line : Str) : State :=
  if isHeaderLine line then
    let st1 := flushOnHeader st
    let chrIndex1 := (st1.chrIndex + 1) % 2 ^ 8
    let chrHeader := chrHeaderOf line
    let chrID := candidateID line
    if humanOptFlag && !isPrimaryHG chrID then
      { st1 with chrIndex := (chrIndex1 + 255) % 2 ^ 8, contFlag := false }
    else
      let r := uniquify chrHeader st1.chrMap chrID st1.unIDCount
      let key := (chrIndex1 + 255) % 2 ^ 8
      { st1 with
        chrIndex := chrIndex1
        chrMap := mapInsert st1.chrMap key r.1
        unIDCount := r.2.1
        contFlag := true
        trace := st1.trace ++ r.2.2 ++ [Event.insert key r.1] }
  else if st.contFlag then
    let r := readLine line st.lastC st.chrIndex st.cpgTab st.cpgStartTab st.seq
    { st with
      lastC := r.lastC
      cpgTab := r.cpgTab
      cpgStartTab := r.cpgStartTab
      seq := r.seq
      trace := st.trace ++ [Event.scan line st.lastC st.chrIndex] }
  else st

/-- The local variables and the caller's containers on entry, with empty containers
(source lines 26-52). -/
def init : State :=
  { cpgTab := [], cpgStartTab := [], genSeq := [], chrMap := [], seq := [], chrIndex := 0,
    contFlag := false, lastC := false, unIDCount := 1, trace := [] }

/-- The entry state when the caller passes containers that already hold data. -/
def initWith (cpgTab cpgStartTab : List CpG) (genSeq : List Str) (chrMap : List (Nat × Str)) :
    State :=
  { init with cpgTab := cpgTab, cpgStartTab := cpgStartTab, genSeq := genSeq, chrMap := chrMap }

/-- The whole `while` loop over the lines of the file. -/
def runLines (readLine : Scanner) (humanOptFlag : Bool) (st : State) (lines : List Str) :
    State :=
  lines.foldl (step readLine humanOptFlag) st

/-- The flush at the end of the stream (source lines 122-126). The local buffer `seq` is
moved from and never read again. -/
def finish (st : State) : State :=
  if st.contFlag then { st with genSeq := st.genSeq ++ [st.seq], seq := [] } else st

/-- The function `readReference` from given containers: the loop, then the final flush. -/
def readReferenceFrom (readLine : Scanner) (humanOptFlag : Bool) (st : State)
    (lines : List Str) : State :=
  finish (runLines readLine humanOptFlag st lines)

/-- The function `readReference` (source lines 24-133) from empty containers. -/
def readReference (readLine : Scanner) (humanOptFlag : Bool) (lines : List Str) : State :=
  readReferenceFrom readLine humanOptFlag init lines

/-! ## Vocabulary of the statements -/

/-- The 28 names of the whitelist as the specification lists them. -/
def whitelistNames : List Str :=
  ["chr1".toList, "chr2".toList, "chr3".toList, "chr4".toList, "chr5".toList, "chr6".toList,
    "chr7".toList, "chr8".toList, "chr9".toList, "chr10".toList, "chr11".toList,
    "chr12".toList, "chr13".toList, "chr14".toList, "chr15".toList, "chr16".toList,
    "chr17".toList, "chr18".toList, "chr19".toList, "chr20".toList, "chr21".toList,
    "chr22".toList, "chrX".toList, "chrY".toList, "chrM".toList, "chrMT".toList,
    "lambda".toList, "pUC19".toList]

/-- A character that is neither a space nor a tab. -/
def notBlank (c : Char) : Bool := !([' ', '\t'].contains c)

/-- A header line that is not rejected by the whitelist check of source lines 79-87. -/
def isAccepted (humanOptFlag : Bool) (line : Str) : Bool :=
  isHeaderLine line && !(humanOptFlag && !isPrimaryHG (candidateID line))

/-- A header line that the whitelist check of source lines 79-87 rejects. -/
def isRejected (humanOptFlag : Bool) (line : Str) : Bool :=
  isHeaderLine line && (humanOptFlag && !isPrimaryHG (candidateID line))

/-- The number of accepted header lines among `lines`. -/
def acceptedCount (humanOptFlag : Bool) (lines : List Str) : Nat :=
  lines.countP (isAccepted humanOptFlag)

/-- The identifiers handed to `chrMap.insert`, in program order: the identifier resolved for
each accepted header. -/
def insertIDs : List Event → List Str
  | [] => []
  | Event.insert _ chrID :: es => chrID :: insertIDs es
  | _ :: es => insertIDs es

/-- The keys handed to `chrMap.insert`, in program order. -/
def insertKeys : List Event → List Nat
  | [] => []
  | Event.insert key _ :: es => key :: insertKeys es
  | _ :: es => insertKeys es

/-- The rename warnings printed, in program order: header text and new identifier. -/
def warnings : List Event → List (Str × Str)
  | [] => []
  | Event.warning h c :: es => (h, c) :: warnings es
  | _ :: es => warnings es

/-- The lines handed to `readLine`, in program order, with the carry flag and the record
number passed along. -/
def scans : List Event → List (Str × Bool × Nat)
  | [] => []
  | Event.scan l c i :: es => (l, c, i) :: scans es
  | _ :: es => scans es

/-- The identifiers stored in the map. -/
def mapValues (m : List (Nat × Str)) : List Str := m.map Prod.snd

/-- What holds after any number of loop iterations, where `n` is the number of header lines
accepted so far, `g0` the length of `genSeq` on entry and `m0` the `chrMap` on entry. -/
structure Inv (g0 : Nat) (m0 : List (Nat × Str)) (st : State) (n : Nat) : Prop where
  idx : st.chrIndex = n % 2 ^ 8
  ids_len : (insertIDs st.trace).length = n
  keys : insertKeys st.trace = (List.range n).map (fun i => i % 2 ^ 8)
  map : m0 = [] → st.chrMap = ((insertIDs st.trace).take 256).enum
  gen : st.genSeq.length + (if st.contFlag then 1 else 0) = g0 + n
  cnt : st.unIDCount = (1 + (warnings st.trace).length) % 2 ^ 32
  dead : st.contFlag = false → st.lastC = false ∧ st.seq = []

/-- The buffers as the specification describes them: one per accepted header, holding the
concatenation of the non-header lines up to the next header line or the end of the input.
Lines before the first header and lines after a rejected header go nowhere. -/
def specBuffers (humanOptFlag : Bool) : List Str → List Str
  | [] => []
  | l :: rest =>
    if isAccepted humanOptFlag l then
      (rest.takeWhile (fun x => !isHeaderLine x)).flatten :: specBuffers humanOptFlag rest
    else specBuffers humanOptFlag rest

/-- The scanner contract assumed for the buffers: the line is appended to the live buffer
unchanged. -/
def AppendsLine (sc : Scanner) : Prop :=
  ∀ line lastC chrIndex cpgTab cpgStartTab seq,
    (sc line lastC chrIndex cpgTab cpgStartTab seq).seq = seq ++ line

/-- A scanner that appends the line and leaves the tables and the flag alone. -/
def appendScanner : Scanner :=
  fun line lastC _ cpgTab cpgStartTab seq => ⟨lastC, cpgTab, cpgStartTab, seq ++ line⟩

/-- The identifier the uniqueness loop hands on: the candidate itself, or the candidate with
`_` and the decimal counter appended when some entry of the map already holds it. -/
def resolve (m : List (Nat × Str)) (chrID : Str) (unIDCount : Nat) : Str :=
  if chrID ∈ mapValues m then chrID ++ ['_'] ++ to_string unIDCount else chrID

/-- The letter `C` in either case (the motif is case-insensitive). -/
def isC (c : Char) : Bool := c == 'C' || c == 'c'

/-- The letter `G` in either case (the motif is case-insensitive). -/
def isG (c : Char) : Bool := c == 'G' || c == 'g'

/-- The offsets, counted from `off`, of the characters `C` of a line that are directly
followed by a `G` in the same line. -/
def inLineCpGs : Str → Nat → List Nat
  | [], _ => []
  | c :: rest, off =>
    match rest with
    | [] => []
    | d :: _ =>
      if isC c && isG d then off :: inLineCpGs rest (off + 1) else inLineCpGs rest (off + 1)

/-- Modelled from the spec: `readLine` is declared in `RefReader_istr.h` and its body is not
part of the sources. By the spec the line's characters are appended to the live buffer and
scanned for the motif `CG` (case-insensitive) using the carry flag; every occurrence is
recorded in the full table with the owning record's index (the 0-based key, `chrIndex - 1`
in 8 bits) and the offset of its `C` in the record's sequence; an occurrence whose `C` ended
the previous line and whose `G` begins this line is additionally recorded in the boundary
table; the carry flag becomes whether this line's last character is a `C`. An empty line
has no last character and leaves the carry flag as it is. -/
def readLineSpec : Scanner :=
  fun line lastC chrIndex cpgTab cpgStartTab seq =>
    let record := (chrIndex + 255) % 2 ^ 8
    let boundary : List CpG :=
      if lastC && (line.head?.map isG).getD false then [⟨record, seq.length - 1⟩] else []
    let inLine : List CpG := (inLineCpGs line seq.length).map (fun o => ⟨record, o⟩)
    { lastC := (line.getLast?.map isC).getD lastC
      cpgTab := cpgTab ++ boundary ++ inLine
      cpgStartTab := cpgStartTab ++ boundary
      seq := seq ++ line }

/-- An identifier that is a whitelisted name, or a whitelisted name followed by `_` and the
decimal numeral of a positive integer. -/
def WhitelistDerived (chrID : Str) : Prop :=
  isPrimaryHG chrID = true
  ∨ ∃ (c : Str) (k : Nat), isPrimaryHG c = true ∧ 0 < k ∧ chrID = c ++ ['_'] ++ to_string k

/-! ## The whitelist -/

theorem numbered_names :
    (List.range' 1 22).map (fun i => "chr".toList ++ to_string i) = whitelistNames.take 22 := by
  decide

theorem isPrimaryHG_eq_decide (s : Str) : isPrimaryHG s = decide (s ∈ whitelistNames) := by
  have hsplit : whitelistNames = whitelistNames.take 22 ++ specialChromosomes := by decide
  have hany : (List.range' 1 22).any (fun i => s == "chr".toList ++ to_string i)
      = decide (s ∈ whitelistNames.take 22) := by
    rw [← numbered_names]
    rw [Bool.eq_iff_iff]
    simp only [List.any_eq_true, beq_iff_eq, decide_eq_true_eq, List.mem_map]
    constructor
    · rintro ⟨i, hi, rfl⟩; exact ⟨i, hi, rfl⟩
    · rintro ⟨i, hi, h⟩; exact ⟨i, hi, h.symm⟩
  unfold isPrimaryHG
  rw [hany]
  conv_rhs => rw [hsplit]
  by_cases h1 : s ∈ whitelistNames.take 22
  · simp [h1]
  · by_cases h2 : s ∈ specialChromosomes <;> simp [h1, h2]

/-! ## Identifier extraction -/

theorem find_first_of_from_eq (set s : Str) (i : Nat) :
    find_first_of_from set s i =
      if s.all (fun c => !set.contains c) then npos
      else i + (s.takeWhile (fun c => !set.contains c)).length := by
  induction s generalizing i with
  | nil => rfl
  | cons c cs ih =>
    cases hc : set.contains c
    · rw [find_first_of_from, List.all_cons, List.takeWhile_cons, hc, ih]
      cases hall : cs.all (fun c => !set.contains c)
      · simp; omega
      · simp
    · rw [find_first_of_from, List.all_cons, List.takeWhile_cons, hc]
      simp

theorem take_length_takeWhile (p : Char → Bool) (s : Str) :
    s.take (s.takeWhile p).length = s.takeWhile p := by
  induction s with
  | nil => rfl
  | cons c cs ih =>
    by_cases hc : p c = true
    · simp [List.takeWhile_cons, hc, ih]
    · simp [List.takeWhile_cons, hc]

theorem takeWhile_eq_self_of_all (p : Char → Bool) (s : Str) (h : s.all p = true) :
    s.takeWhile p = s := by
  induction s with
  | nil => rfl
  | cons c cs ih =>
    rw [List.all_cons, Bool.and_eq_true] at h
    rw [List.takeWhile_cons, h.1]
    simp [ih h.2]

theorem length_takeWhile_le (p : Char → Bool) (s : Str) : (s.takeWhile p).length ≤ s.length := by
  induction s with
  | nil => simp
  | cons c cs ih =>
    rw [List.takeWhile_cons]
    split
    · simp; omega
    · simp

/-- Below the `uint32_t` range the candidate identifier is the longest blank-free prefix of
the header text. -/
theorem candidateID_eq_takeWhile (line : Str) (hlen : line.length ≤ 2 ^ 32) :
    candidateID line = (chrHeaderOf line).takeWhile notBlank := by
  have hh : (chrHeaderOf line).length ≤ 2 ^ 32 - 1 := by
    cases line with
    | nil => simp [chrHeaderOf]
    | cons c cs => simp [chrHeaderOf] at hlen ⊢; omega
  have hfun : notBlank = fun c => !([' ', '\t'] : Str).contains c := rfl
  unfold candidateID headerPos find_first_of
  generalize chrHeaderOf line = hdr at hh ⊢
  rw [find_first_of_from_eq, hfun]
  cases hall : hdr.all (fun c => !([' ', '\t'] : Str).contains c)
  · have hle := length_takeWhile_le (fun c => !([' ', '\t'] : Str).contains c) hdr
    have hlt : (hdr.takeWhile (fun c => !([' ', '\t'] : Str).contains c)).length < 2 ^ 32 := by
      omega
    simp only [Bool.false_eq_true, if_false, Nat.zero_add, Nat.mod_eq_of_lt hlt]
    exact take_length_takeWhile _ hdr
  · rw [takeWhile_eq_self_of_all _ hdr hall]
    simp only [if_true]
    apply List.take_of_length_le
    have : npos % 2 ^ 32 = 2 ^ 32 - 1 := by decide
    omega

theorem takeWhile_replicate_append (p : Char → Bool) (a b : Char) (n : Nat) (rest : Str)
    (ha : p a = true) (hb : p b = false) :
    (List.replicate n a ++ b :: rest).takeWhile p = List.replicate n a := by
  induction n with
  | zero => simp [List.takeWhile_cons, hb]
  | succ k ih => rw [List.replicate_succ, List.cons_append, List.takeWhile_cons, ha]; simp [ih]

theorem all_replicate_append_false (p : Char → Bool) (a b : Char) (n : Nat) (rest : Str)
    (hb : p b = false) : (List.replicate n a ++ b :: rest).all p = false := by
  rw [List.all_append, List.all_cons, hb]; simp

/-- A header whose first blank sits at index `n`: `pos` is `n` reduced modulo `2^32`. -/
theorem candidateID_replicate (n : Nat) (rest : Str) :
    candidateID ('>' :: (List.replicate n 'A' ++ ' ' :: rest))
      = List.replicate (n % 2 ^ 32) 'A' := by
  unfold candidateID headerPos find_first_of chrHeaderOf
  rw [List.tail_cons, find_first_of_from_eq,
    all_replicate_append_false _ 'A' ' ' n rest (by decide),
    takeWhile_replicate_append _ 'A' ' ' n rest (by decide) (by decide)]
  simp only [Bool.false_eq_true, if_false, Nat.zero_add, List.length_replicate]
  rw [List.take_append_of_le_length (by rw [List.length_replicate]; exact Nat.mod_le _ _),
    List.take_replicate, Nat.min_eq_left (Nat.mod_le _ _)]

theorem isHeaderLine_replicate (n : Nat) (rest : Str) :
    isHeaderLine ('>' :: (List.replicate n 'A' ++ ' ' :: rest)) = true := by
  cases n <;> rfl

/-- C7 at its failing input, the header line `>`, then 2^32 times `A`, then ` x`: the index of
the first blank, 2^32, is narrowed to `uint32_t` and becomes 0, so the candidate identifier
is empty, whereas the longest blank-free prefix of the header text is the 2^32 `A`s. -/
theorem C7_candidate_truncated_at_4GiB :
    candidateID ('>' :: (List.replicate (2 ^ 32) 'A' ++ [' ', 'x'])) = []
    ∧ (chrHeaderOf ('>' :: (List.replicate (2 ^ 32) 'A' ++ [' ', 'x']))).takeWhile notBlank
        = List.replicate (2 ^ 32) 'A'
    ∧ isHeaderLine ('>' :: (List.replicate (2 ^ 32) 'A' ++ [' ', 'x'])) = true :=
  ⟨(candidateID_replicate (2 ^ 32) ['x']).trans
      (congrArg (fun k => List.replicate k 'A') (Nat.mod_self (2 ^ 32))),
    takeWhile_replicate_append notBlank 'A' ' ' (2 ^ 32) ['x'] (by decide) (by decide),
    isHeaderLine_replicate (2 ^ 32) ['x']⟩

/-! ## Accepted headers and projections of the trace -/

theorem insertIDs_append (a b : List Event) : insertIDs (a ++ b) = insertIDs a ++ insertIDs b := by
  induction a with
  | nil => rfl
  | cons e es ih => cases e <;> simp [insertIDs, ih]

theorem insertKeys_append (a b : List Event) :
    insertKeys (a ++ b) = insertKeys a ++ insertKeys b := by
  induction a with
  | nil => rfl
  | cons e es ih => cases e <;> simp [insertKeys, ih]

theorem warnings_append (a b : List Event) : warnings (a ++ b) = warnings a ++ warnings b := by
  induction a with
  | nil => rfl
  | cons e es ih => cases e <;> simp [warnings, ih]

theorem scans_append (a b : List Event) : scans (a ++ b) = scans a ++ scans b := by
  induction a with
  | nil => rfl
  | cons e es ih => cases e <;> simp [scans, ih]

/-! ## The uniqueness loop -/

theorem uniquify_of_not_mem (hdr : Str) (m : List (Nat × Str)) (c : Str) (k : Nat)
    (h : c ∉ mapValues m) : uniquify hdr m c k = (c, k, []) := by
  induction m with
  | nil => rfl
  | cons p rest ih =>
    simp only [mapValues, List.map_cons, List.mem_cons, not_or] at h
    have hne : (p.2 == c) = false := by
      rw [beq_eq_false_iff_ne]; exact fun e => h.1 e.symm
    rw [uniquify, hne]
    exact ih h.2

theorem uniquify_of_mem (hdr : Str) (m : List (Nat × Str)) (c : Str) (k : Nat)
    (h : c ∈ mapValues m) :
    uniquify hdr m c k
      = (c ++ ['_'] ++ to_string k, (k + 1) % 2 ^ 32,
          [Event.warning hdr (c ++ ['_'] ++ to_string k)]) := by
  induction m with
  | nil => simp [mapValues] at h
  | cons p rest ih =>
    cases hp : (p.2 == c)
    · rw [uniquify, hp]
      simp only [mapValues, List.map_cons, List.mem_cons] at h
      rcases h with h | h
      · rw [beq_eq_false_iff_ne] at hp; exact absurd h.symm hp
      · exact ih h
    · rw [uniquify, hp]; rfl

/-- The outcome of the uniqueness loop depends only on whether some entry holds `chrID`, not
on the order in which the entries are visited. -/
theorem uniquify_perm (hdr : Str) (m m' : List (Nat × Str)) (c : Str) (k : Nat)
    (h : m.Perm m') : uniquify hdr m c k = uniquify hdr m' c k := by
  by_cases hc : c ∈ mapValues m
  · rw [uniquify_of_mem hdr m c k hc,
      uniquify_of_mem hdr m' c k ((h.map Prod.snd).mem_iff.mp hc)]
  · rw [uniquify_of_not_mem hdr m c k hc,
      uniquify_of_not_mem hdr m' c k (fun h' => hc ((h.map Prod.snd).mem_iff.mpr h'))]

/-! ## One loop iteration, case by case -/

theorem step_nonheader_dead (sc : Scanner) (flag : Bool) (st : State) (line : Str)
    (hh : isHeaderLine line = false) (hc : st.contFlag = false) : step sc flag st line = st := by
  simp [step, hh, hc]

theorem step_nonheader_live (sc : Scanner) (flag : Bool) (st : State) (line : Str)
    (hh : isHeaderLine line = false) (hc : st.contFlag = true) :
    step sc flag st line =
      { st with
        lastC := (sc line st.lastC st.chrIndex st.cpgTab st.cpgStartTab st.seq).lastC
        cpgTab := (sc line st.lastC st.chrIndex st.cpgTab st.cpgStartTab st.seq).cpgTab
        cpgStartTab := (sc line st.lastC st.chrIndex st.cpgTab st.cpgStartTab st.seq).cpgStartTab
        seq := (sc line st.lastC st.chrIndex st.cpgTab st.cpgStartTab st.seq).seq
        trace := st.trace ++ [Event.scan line st.lastC st.chrIndex] } := by
  simp [step, hh, hc]

theorem step_rejected (sc : Scanner) (flag : Bool) (st : State) (line : Str)
    (hr : isRejected flag line = true) :
    step sc flag st line =
      { flushOnHeader st with
        chrIndex := (((flushOnHeader st).chrIndex + 1) % 2 ^ 8 + 255) % 2 ^ 8
        contFlag := false } := by
  simp only [isRejected, Bool.and_eq_true] at hr
  simp [step, hr.1, hr.2]

theorem step_accepted (sc : Scanner) (flag : Bool) (st : State) (line : Str)
    (ha : isAccepted flag line = true) :
    step sc flag st line =
      { flushOnHeader st with
        chrIndex := ((flushOnHeader st).chrIndex + 1) % 2 ^ 8
        chrMap := mapInsert (flushOnHeader st).chrMap
          ((((flushOnHeader st).chrIndex + 1) % 2 ^ 8 + 255) % 2 ^ 8)
          (uniquify (chrHeaderOf line) (flushOnHeader st).chrMap (candidateID line)
            (flushOnHeader st).unIDCount).1
        unIDCount := (uniquify (chrHeaderOf line) (flushOnHeader st).chrMap (candidateID line)
            (flushOnHeader st).unIDCount).2.1
        contFlag := true
        trace := (flushOnHeader st).trace
          ++ (uniquify (chrHeaderOf line) (flushOnHeader st).chrMap (candidateID line)
            (flushOnHeader st).unIDCount).2.2
          ++ [Event.insert ((((flushOnHeader st).chrIndex + 1) % 2 ^ 8 + 255) % 2 ^ 8)
            (uniquify (chrHeaderOf line) (flushOnHeader st).chrMap (candidateID line)
              (flushOnHeader st).unIDCount).1] } := by
  simp only [isAccepted, Bool.and_eq_true, Bool.not_eq_true'] at ha
  simp [step, ha.1, ha.2]

theorem header_cases (flag : Bool) (line : Str) :
    (isHeaderLine line = false ∧ isAccepted flag line = false ∧ isRejected flag line = false)
    ∨ (isHeaderLine line = true ∧ isAccepted flag line = true ∧ isRejected flag line = false)
    ∨ (isHeaderLine line = true ∧ isAccepted flag line = false ∧ isRejected flag line = true) := by
  unfold isAccepted isRejected
  cases isHeaderLine line <;> cases flag <;> cases isPrimaryHG (candidateID line) <;> simp

theorem flushOnHeader_frame (st : State) :
    (flushOnHeader st).chrMap = st.chrMap ∧ (flushOnHeader st).chrIndex = st.chrIndex
    ∧ (flushOnHeader st).unIDCount = st.unIDCount ∧ (flushOnHeader st).trace = st.trace
    ∧ (flushOnHeader st).cpgTab = st.cpgTab ∧ (flushOnHeader st).cpgStartTab = st.cpgStartTab
    ∧ (flushOnHeader st).contFlag = st.contFlag := by
  unfold flushOnHeader
  split <;> simp

theorem runLines_append (sc : Scanner) (flag : Bool) (st : State) (a b : List Str) :
    runLines sc flag st (a ++ b) = runLines sc flag (runLines sc flag st a) b := by
  simp [runLines, List.foldl_append]

theorem runLines_cons (sc : Scanner) (flag : Bool) (st : State) (l : Str) (ls : List Str) :
    runLines sc flag st (l :: ls) = runLines sc flag (step sc flag st l) ls := rfl

theorem runLines_nil (sc : Scanner) (flag : Bool) (st : State) : runLines sc flag st [] = st := rfl

/-! ## The invariant of a parse from empty containers -/

theorem Inv_initWith (t1 t2 : List CpG) (g : List Str) (m : List (Nat × Str)) :
    Inv g.length m (initWith t1 t2 g m) 0 := by
  constructor <;> simp [initWith, init, insertIDs, insertKeys, warnings]

theorem Inv_init : Inv 0 [] init 0 := Inv_initWith [] [] [] []

theorem enum_any_key (l : List Str) (k : Nat) :
    l.enum.any (fun p => p.1 == k) = decide (k < l.length) := by
  rw [Bool.eq_iff_iff]
  simp only [List.any_eq_true, beq_iff_eq, decide_eq_true_eq]
  constructor
  · rintro ⟨⟨i, x⟩, hmem, rfl⟩
    exact List.fst_lt_of_mem_enum hmem
  · intro h
    exact ⟨(k, l[k]), by rw [List.mk_mem_enum_iff_getElem?]; simp [h], rfl⟩

theorem mapInsert_enum (ids : List Str) (v : Str) :
    mapInsert ((ids.take 256).enum) (ids.length % 2 ^ 8) v = (((ids ++ [v]).take 256).enum) := by
  unfold mapInsert
  rw [enum_any_key]
  by_cases h : ids.length < 256
  · have h1 : ids.take 256 = ids := List.take_of_length_le (by omega)
    have h2 : (ids ++ [v]).take 256 = ids ++ [v] :=
      List.take_of_length_le (by simp; omega)
    have h3 : ids.length % 2 ^ 8 = ids.length := Nat.mod_eq_of_lt h
    rw [h1, h2, h3, List.enum_append]
    simp
  · have h1 : (ids.take 256).length = 256 := by simp; omega
    have h2 : (ids ++ [v]).take 256 = ids.take 256 := by
      rw [List.take_append_of_le_length (by omega)]
    have h3 : ids.length % 2 ^ 8 < 256 := Nat.mod_lt _ (by decide)
    rw [h1, h2]
    simp only [h3, decide_True, if_true]

theorem uniquify_trace (hdr : Str) (m : List (Nat × Str)) (c : Str) (k : Nat) :
    insertIDs (uniquify hdr m c k).2.2 = [] ∧ insertKeys (uniquify hdr m c k).2.2 = []
    ∧ scans (uniquify hdr m c k).2.2 = []
    ∧ (uniquify hdr m c k).2.1 % 2 ^ 32
        = (k + (warnings (uniquify hdr m c k).2.2).length) % 2 ^ 32 := by
  by_cases hc : c ∈ mapValues m
  · rw [uniquify_of_mem hdr m c k hc]
    simp [insertIDs, insertKeys, scans, warnings]
  · rw [uniquify_of_not_mem hdr m c k hc]
    simp [insertIDs, insertKeys, scans, warnings]

theorem uniquify_counter_lt (hdr : Str) (m : List (Nat × Str)) (c : Str) (k : Nat)
    (hk : k < 2 ^ 32) : (uniquify hdr m c k).2.1 < 2 ^ 32 := by
  by_cases hc : c ∈ mapValues m
  · rw [uniquify_of_mem hdr m c k hc]
    exact Nat.mod_lt _ (by decide)
  · rw [uniquify_of_not_mem hdr m c k hc]
    exact hk

theorem Inv_step (sc : Scanner) (flag : Bool) (g0 : Nat) (m0 : List (Nat × Str)) (st : State)
    (n : Nat) (line : Str) (h : Inv g0 m0 st n) :
    Inv g0 m0 (step sc flag st line) (n + if isAccepted flag line then 1 else 0) := by
  obtain ⟨hidx, hlen, hkeys, hmap, hgen, hcnt, hdead⟩ := h
  rcases header_cases flag line with ⟨hh, ha, _⟩ | ⟨hh, ha, _⟩ | ⟨hh, ha, hr⟩
  · -- not a header line
    simp only [ha, Bool.false_eq_true, if_false, Nat.add_zero]
    cases hcf : st.contFlag
    · rw [step_nonheader_dead sc flag st line hh hcf]
      exact ⟨hidx, hlen, hkeys, hmap, hgen, hcnt, hdead⟩
    · rw [step_nonheader_live sc flag st line hh hcf]
      constructor
      · simpa using hidx
      · simpa [insertIDs_append, insertIDs] using hlen
      · simpa [insertKeys_append, insertKeys] using hkeys
      · simpa [insertIDs_append, insertIDs] using hmap
      · simpa using hgen
      · simpa [warnings_append, warnings] using hcnt
      · intro hfalse; simp [hcf] at hfalse
  · -- accepted header
    simp only [ha, if_true]
    rw [step_accepted sc flag st line ha]
    obtain ⟨f1, f2, f3, f4, _, _, _⟩ := flushOnHeader_frame st
    obtain ⟨u1, u2, _, u4⟩ :=
      uniquify_trace (chrHeaderOf line) st.chrMap (candidateID line) st.unIDCount
    have hk : st.unIDCount < 2 ^ 32 := by rw [hcnt]; exact Nat.mod_lt _ (by decide)
    have u5 := uniquify_counter_lt (chrHeaderOf line) st.chrMap (candidateID line)
      st.unIDCount hk
    have hkey : ((st.chrIndex + 1) % 2 ^ 8 + 255) % 2 ^ 8 = n % 2 ^ 8 := by
      rw [hidx]; omega
    simp only [f1, f2, f3, f4, hkey]
    constructor
    · simp only [hidx]; omega
    · simp [insertIDs_append, insertIDs, u1, hlen]
    · simp [insertKeys_append, insertKeys, u2, hkeys, List.range_succ]
    · intro hm0
      simp only [insertIDs_append, insertIDs, u1, List.append_nil]
      rw [hmap hm0]
      have := mapInsert_enum (insertIDs st.trace)
        (uniquify (chrHeaderOf line) (List.take 256 (insertIDs st.trace)).enum (candidateID line)
          st.unIDCount).1
      rw [hlen] at this
      exact this
    · cases hcf : st.contFlag
      · simp [flushOnHeader, hcf] at hgen ⊢; omega
      · simp [flushOnHeader, hcf] at hgen ⊢; omega
    · simp only [warnings_append, warnings, List.append_nil, List.length_append]
      rw [← Nat.mod_eq_of_lt u5, u4, hcnt]
      omega
    · intro hfalse; simp at hfalse
  · -- rejected header
    simp only [ha, Bool.false_eq_true, if_false, Nat.add_zero]
    rw [step_rejected sc flag st line hr]
    obtain ⟨f1, f2, f3, f4, _, _, _⟩ := flushOnHeader_frame st
    simp only [f1, f2, f3, f4]
    constructor
    · simp only [hidx]; omega
    · simpa using hlen
    · simpa using hkeys
    · simpa using hmap
    · cases hcf : st.contFlag
      · simp [flushOnHeader, hcf] at hgen ⊢; omega
      · simp [flushOnHeader, hcf] at hgen ⊢; omega
    · simpa using hcnt
    · intro _
      cases hcf : st.contFlag
      · simpa [flushOnHeader, hcf] using hdead hcf
      · simp [flushOnHeader, hcf]

theorem acceptedCount_append (flag : Bool) (a b : List Str) :
    acceptedCount flag (a ++ b) = acceptedCount flag a + acceptedCount flag b := by
  simp [acceptedCount, List.countP_append]

theorem acceptedCount_cons (flag : Bool) (l : Str) (ls : List Str) :
    acceptedCount flag (l :: ls)
      = (if isAccepted flag l then 1 else 0) + acceptedCount flag ls := by
  simp only [acceptedCount, List.countP_cons]; omega

theorem Inv_runLines_from (sc : Scanner) (flag : Bool) (g0 : Nat) (m0 : List (Nat × Str))
    (st : State) (n : Nat) (lines : List Str) (h : Inv g0 m0 st n) :
    Inv g0 m0 (runLines sc flag st lines) (n + acceptedCount flag lines) := by
  induction lines generalizing st n with
  | nil => simpa [runLines, acceptedCount] using h
  | cons l ls ih =>
    rw [runLines_cons, acceptedCount_cons, ← Nat.add_assoc]
    exact ih _ _ (Inv_step sc flag g0 m0 st n l h)

theorem Inv_runLines_initWith (sc : Scanner) (flag : Bool) (t1 t2 : List CpG) (g : List Str)
    (m : List (Nat × Str)) (lines : List Str) :
    Inv g.length m (runLines sc flag (initWith t1 t2 g m) lines) (acceptedCount flag lines) := by
  simpa using Inv_runLines_from sc flag g.length m _ 0 lines (Inv_initWith t1 t2 g m)

theorem Inv_runLines (sc : Scanner) (flag : Bool) (lines : List Str) :
    Inv 0 [] (runLines sc flag init lines) (acceptedCount flag lines) :=
  Inv_runLines_initWith sc flag [] [] [] [] lines

/-! ## C1: the buffers hold the record bodies -/

theorem genSeq_readReferenceFrom (sc : Scanner) (flag : Bool) (hsc : AppendsLine sc)
    (lines : List Str) (st : State) (hdead : st.contFlag = false → st.seq = []) :
    (readReferenceFrom sc flag st lines).genSeq
      = st.genSeq
        ++ (if st.contFlag then
              [st.seq ++ (lines.takeWhile (fun x => !isHeaderLine x)).flatten] else [])
        ++ specBuffers flag lines := by
  induction lines generalizing st with
  | nil =>
    cases hcf : st.contFlag <;>
      simp [readReferenceFrom, runLines, finish, hcf, specBuffers]
  | cons l ls ih =>
    have hrun : readReferenceFrom sc flag st (l :: ls)
        = readReferenceFrom sc flag (step sc flag st l) ls := rfl
    rw [hrun]
    rcases header_cases flag l with ⟨hh, ha, _⟩ | ⟨hh, ha, _⟩ | ⟨hh, ha, hr⟩
    · cases hcf : st.contFlag
      · rw [step_nonheader_dead sc flag st l hh hcf, ih st hdead]
        simp [hcf, specBuffers, ha]
      · rw [step_nonheader_live sc flag st l hh hcf, ih _ (by simp [hcf])]
        simp [hcf, specBuffers, ha, hh, List.takeWhile_cons, hsc _ _ _ _ _ _]
    · rw [step_accepted sc flag st l ha, ih _ (by simp)]
      cases hcf : st.contFlag
      · simp [flushOnHeader, hcf, specBuffers, ha, hh, List.takeWhile_cons, hdead hcf]
      · simp [flushOnHeader, hcf, specBuffers, ha, hh, List.takeWhile_cons]
    · rw [step_rejected sc flag st l hr, ih _ (by
        intro _
        cases hcf : st.contFlag
        · simpa [flushOnHeader, hcf] using hdead hcf
        · simp [flushOnHeader, hcf])]
      cases hcf : st.contFlag
      · simp [flushOnHeader, hcf, specBuffers, ha, hh, List.takeWhile_cons]
      · simp [flushOnHeader, hcf, specBuffers, ha, hh, List.takeWhile_cons]

theorem specBuffers_length (flag : Bool) (lines : List Str) :
    (specBuffers flag lines).length = acceptedCount flag lines := by
  induction lines with
  | nil => rfl
  | cons l ls ih =>
    rw [acceptedCount_cons, specBuffers]
    cases ha : isAccepted flag l <;> simp [ih]; omega

theorem specBuffers_at_header (flag : Bool) (pre : List Str) (line : Str) (rest : List Str)
    (ha : isAccepted flag line = true) :
    (specBuffers flag (pre ++ line :: rest))[acceptedCount flag pre]?
      = some ((rest.takeWhile (fun x => !isHeaderLine x)).flatten) := by
  induction pre with
  | nil => simp [specBuffers, ha, acceptedCount]
  | cons p ps ih =>
    rw [List.cons_append, specBuffers, acceptedCount_cons]
    cases hp : isAccepted flag p
    · simpa using ih
    · simp only [if_true, Nat.add_comm 1, List.getElem?_cons_succ]
      exact ih

/-- C1: when the line scanner appends exactly the characters of its line to the live
buffer, a parse from empty outputs leaves in `genSeq` one buffer per accepted header, in
file order: for every accepted header line of the input, the buffer whose index is the
number of headers accepted before it is the concatenation (characters unchanged) of the
non-header lines between that header and the next header line or the end of the input; no
other line reaches any buffer. -/
theorem C1_genSeq_holds_record_bodies (sc : Scanner) (humanOptFlag : Bool) (lines : List Str)
    (hsc : AppendsLine sc) :
    (readReference sc humanOptFlag lines).genSeq = specBuffers humanOptFlag lines
    ∧ (readReference sc humanOptFlag lines).genSeq.length = acceptedCount humanOptFlag lines
    ∧ ∀ (pre : List Str) (line : Str) (rest : List Str), lines = pre ++ line :: rest →
        isAccepted humanOptFlag line = true →
        (readReference sc humanOptFlag lines).genSeq[acceptedCount humanOptFlag pre]?
          = some ((rest.takeWhile (fun x => !isHeaderLine x)).flatten) := by
  have h : (readReference sc humanOptFlag lines).genSeq = specBuffers humanOptFlag lines := by
    have := genSeq_readReferenceFrom sc humanOptFlag hsc lines init (fun _ => rfl)
    simpa [readReference, init] using this
  refine ⟨h, by rw [h, specBuffers_length], fun pre line rest hsplit ha => ?_⟩
  rw [h, hsplit]
  exact specBuffers_at_header humanOptFlag pre line rest ha

/-- C1 at a concrete input: a stray first line, an accepted record of two lines (mixed case),
a rejected record and a second accepted record. -/
theorem C1_genSeq_holds_record_bodies_witness :
    AppendsLine appendScanner
    ∧ (readReference appendScanner true
        ["TT".toList, ">chr1 a".toList, "ACg".toList, "nT".toList, ">chrUn".toList,
          "CGCG".toList, ">chrX".toList, "GG".toList]).genSeq
      = ["ACgnT".toList, "GG".toList] :=
  ⟨fun _ _ _ _ _ _ => rfl,
    (C1_genSeq_holds_record_bodies appendScanner true
      ["TT".toList, ">chr1 a".toList, "ACg".toList, "nT".toList, ">chrUn".toList,
        "CGCG".toList, ">chrX".toList, "GG".toList] (fun _ _ _ _ _ _ => rfl)).1.trans
      (by decide)⟩

/-! ## The end-of-stream flush and lookups -/

theorem finish_frame (st : State) :
    (finish st).chrMap = st.chrMap ∧ (finish st).trace = st.trace
    ∧ (finish st).cpgTab = st.cpgTab ∧ (finish st).cpgStartTab = st.cpgStartTab
    ∧ (finish st).chrIndex = st.chrIndex ∧ (finish st).unIDCount = st.unIDCount := by
  unfold finish
  split <;> simp

theorem mapFind_enumFrom (l : List Str) (s i : Nat) :
    mapFind (l.enumFrom s) i = if s ≤ i then l[i - s]? else none := by
  induction l generalizing s with
  | nil => simp [mapFind]
  | cons x xs ih =>
    have ih' := ih (s + 1)
    unfold mapFind at ih' ⊢
    rw [List.enumFrom_cons, List.find?_cons]
    by_cases hs : s = i
    · subst hs; simp
    · have hne : ((s, x).1 == i) = false := by simpa using hs
      rw [hne]
      simp only [ih']
      by_cases hle : s ≤ i
      · have h1 : s + 1 ≤ i := by omega
        have h2 : i - s = (i - (s + 1)) + 1 := by omega
        simp only [h1, hle, if_true]
        rw [h2, List.getElem?_cons_succ]
      · have h1 : ¬ s + 1 ≤ i := by omega
        simp [h1, hle]

theorem mapFind_enum (l : List Str) (i : Nat) : mapFind l.enum i = l[i]? := by
  rw [List.enum, mapFind_enumFrom]; simp

/-! ## Frame lemmas -/

theorem step_nonheader_frame (sc : Scanner) (flag : Bool) (st : State) (l : Str)
    (hh : isHeaderLine l = false) :
    (step sc flag st l).chrMap = st.chrMap ∧ (step sc flag st l).chrIndex = st.chrIndex
    ∧ (step sc flag st l).unIDCount = st.unIDCount
    ∧ (step sc flag st l).contFlag = st.contFlag
    ∧ (step sc flag st l).genSeq = st.genSeq
    ∧ insertIDs (step sc flag st l).trace = insertIDs st.trace
    ∧ insertKeys (step sc flag st l).trace = insertKeys st.trace
    ∧ warnings (step sc flag st l).trace = warnings st.trace := by
  cases hcf : st.contFlag
  · rw [step_nonheader_dead sc flag st l hh hcf]
    simp [hcf]
  · rw [step_nonheader_live sc flag st l hh hcf]
    simp [hcf, insertIDs_append, insertKeys_append, warnings_append, insertIDs, insertKeys,
      warnings]

theorem runLines_nonheader_frame (sc : Scanner) (flag : Bool) (body : List Str)
    (hb : ∀ l ∈ body, isHeaderLine l = false) (st : State) :
    (runLines sc flag st body).chrMap = st.chrMap
    ∧ (runLines sc flag st body).chrIndex = st.chrIndex
    ∧ (runLines sc flag st body).unIDCount = st.unIDCount
    ∧ (runLines sc flag st body).contFlag = st.contFlag
    ∧ (runLines sc flag st body).genSeq = st.genSeq
    ∧ insertIDs (runLines sc flag st body).trace = insertIDs st.trace
    ∧ insertKeys (runLines sc flag st body).trace = insertKeys st.trace
    ∧ warnings (runLines sc flag st body).trace = warnings st.trace := by
  induction body generalizing st with
  | nil => simp [runLines]
  | cons l ls ih =>
    rw [runLines_cons]
    obtain ⟨a1, a2, a3, a4, a5, a6, a7, a8⟩ :=
      step_nonheader_frame sc flag st l (hb l (List.mem_cons_self _ _))
    obtain ⟨b1, b2, b3, b4, b5, b6, b7, b8⟩ :=
      ih (fun x hx => hb x (List.mem_cons_of_mem _ hx)) (step sc flag st l)
    exact ⟨b1.trans a1, b2.trans a2, b3.trans a3, b4.trans a4, b5.trans a5, b6.trans a6,
      b7.trans a7, b8.trans a8⟩

/-- The fields an accepted header writes, in terms of the state before it. -/
theorem step_accepted_fields (sc : Scanner) (flag : Bool) (st : State) (line : Str)
    (ha : isAccepted flag line = true) :
    (step sc flag st line).chrMap
        = mapInsert st.chrMap (((st.chrIndex + 1) % 2 ^ 8 + 255) % 2 ^ 8)
            (resolve st.chrMap (candidateID line) st.unIDCount)
    ∧ (step sc flag st line).chrIndex = (st.chrIndex + 1) % 2 ^ 8
    ∧ (step sc flag st line).unIDCount
        = (if candidateID line ∈ mapValues st.chrMap then (st.unIDCount + 1) % 2 ^ 32
            else st.unIDCount)
    ∧ (step sc flag st line).contFlag = true
    ∧ insertIDs (step sc flag st line).trace
        = insertIDs st.trace ++ [resolve st.chrMap (candidateID line) st.unIDCount]
    ∧ insertKeys (step sc flag st line).trace
        = insertKeys st.trace ++ [((st.chrIndex + 1) % 2 ^ 8 + 255) % 2 ^ 8]
    ∧ warnings (step sc flag st line).trace
        = warnings st.trace
          ++ (if candidateID line ∈ mapValues st.chrMap then
                [(chrHeaderOf line, resolve st.chrMap (candidateID line) st.unIDCount)]
              else []) := by
  rw [step_accepted sc flag st line ha]
  obtain ⟨f1, f2, f3, f4, _, _, _⟩ := flushOnHeader_frame st
  simp only [f1, f2, f3, f4, resolve]
  by_cases hc : candidateID line ∈ mapValues st.chrMap
  · rw [uniquify_of_mem _ _ _ _ hc]
    simp [hc, insertIDs_append, insertKeys_append, warnings_append, insertIDs, insertKeys,
      warnings]
  · rw [uniquify_of_not_mem _ _ _ _ hc]
    simp [hc, insertIDs_append, insertKeys_append, warnings_append, insertIDs, insertKeys,
      warnings]

/-- The fields a rejected header leaves alone. -/
theorem step_rejected_fields (sc : Scanner) (flag : Bool) (st : State) (line : Str)
    (hr : isRejected flag line = true) (hidx : st.chrIndex < 2 ^ 8) :
    (step sc flag st line).chrMap = st.chrMap
    ∧ (step sc flag st line).chrIndex = st.chrIndex
    ∧ (step sc flag st line).unIDCount = st.unIDCount
    ∧ (step sc flag st line).contFlag = false
    ∧ (step sc flag st line).trace = st.trace
    ∧ (step sc flag st line).cpgTab = st.cpgTab
    ∧ (step sc flag st line).cpgStartTab = st.cpgStartTab
    ∧ (step sc flag st line).genSeq = (if st.contFlag then st.genSeq ++ [st.seq] else st.genSeq)
    ∧ ((step sc flag st line).lastC = false ∨ (step sc flag st line).lastC = st.lastC) := by
  rw [step_rejected sc flag st line hr]
  obtain ⟨f1, f2, f3, f4, f5, f6, _⟩ := flushOnHeader_frame st
  simp only [f1, f2, f3, f4, f5, f6, true_and]
  refine ⟨by omega, ?_, ?_⟩
  · cases hcf : st.contFlag <;> simp [flushOnHeader, hcf]
  · cases hcf : st.contFlag <;> simp [flushOnHeader, hcf]

theorem step_chrIndex_lt (sc : Scanner) (flag : Bool) (st : State) (line : Str)
    (h : st.chrIndex < 2 ^ 8) : (step sc flag st line).chrIndex < 2 ^ 8 := by
  rcases header_cases flag line with ⟨hh, _, _⟩ | ⟨_, ha, _⟩ | ⟨_, _, hr⟩
  · rw [(step_nonheader_frame sc flag st line hh).2.1]; exact h
  · rw [(step_accepted_fields sc flag st line ha).2.1]; exact Nat.mod_lt _ (by decide)
  · rw [(step_rejected_fields sc flag st line hr h).2.1]; exact h

theorem runLines_chrIndex_lt (sc : Scanner) (flag : Bool) (lines : List Str) (st : State)
    (h : st.chrIndex < 2 ^ 8) : (runLines sc flag st lines).chrIndex < 2 ^ 8 := by
  induction lines generalizing st with
  | nil => exact h
  | cons l ls ih => exact ih _ (step_chrIndex_lt sc flag st l h)

theorem warnings_length_step_le (sc : Scanner) (flag : Bool) (st : State) (l : Str) :
    (warnings (step sc flag st l).trace).length
      ≤ (warnings st.trace).length + (if isAccepted flag l then 1 else 0) := by
  rcases header_cases flag l with ⟨hh, ha, _⟩ | ⟨_, ha, _⟩ | ⟨_, ha, hr⟩
  · rw [(step_nonheader_frame sc flag st l hh).2.2.2.2.2.2.2]
    omega
  · rw [(step_accepted_fields sc flag st l ha).2.2.2.2.2.2, List.length_append]
    simp only [ha, if_true]
    have : (if candidateID l ∈ mapValues st.chrMap then
        [(chrHeaderOf l, resolve st.chrMap (candidateID l) st.unIDCount)] else []).length ≤ 1 := by
      split <;> simp
    omega
  · rw [step_rejected sc flag st l hr]
    simp only [(flushOnHeader_frame st).2.2.2.1]
    omega

theorem warnings_length_le (sc : Scanner) (flag : Bool) (lines : List Str) (st : State) :
    (warnings (runLines sc flag st lines).trace).length
      ≤ (warnings st.trace).length + acceptedCount flag lines := by
  induction lines generalizing st with
  | nil => simp [runLines]
  | cons l ls ih =>
    rw [runLines_cons, acceptedCount_cons]
    have h1 := ih (step sc flag st l)
    have h2 := warnings_length_step_le sc flag st l
    omega

/-! ## C2: the entries of `chrMap` -/

/-- C2 fails as stated: 257 accepted headers leave 256 entries in `chrMap`, because the
257th key, computed in 8 bits, is 0 again and `insert` does nothing for a present key. -/
theorem C2_fails_with_257_headers :
    acceptedCount false (List.replicate 257 ">a".toList) = 257
    ∧ (readReference appendScanner false (List.replicate 257 ">a".toList)).chrMap.length
        = 256
    ∧ (readReference appendScanner false (List.replicate 257 ">a".toList)).chrMap.length
        ≠ acceptedCount false (List.replicate 257 ">a".toList) := by
  have hN : acceptedCount false (List.replicate 257 ">a".toList) = 257 := by
    rw [acceptedCount, List.countP_replicate]
    rfl
  have hinv := Inv_runLines appendScanner false (List.replicate 257 ">a".toList)
  rw [hN] at hinv
  have hlen : (readReference appendScanner false
      (List.replicate 257 ">a".toList)).chrMap.length = 256 := by
    rw [readReference, readReferenceFrom, (finish_frame _).1, hinv.map rfl, List.enum_length,
      List.length_take, hinv.ids_len]
    rfl
  refine ⟨hN, hlen, ?_⟩
  rw [hlen, hN]
  decide

theorem uniquify_fst (hdr : Str) (m : List (Nat × Str)) (c : Str) (k : Nat) :
    (uniquify hdr m c k).1 = resolve m c k := by
  unfold resolve
  by_cases hc : c ∈ mapValues m
  · rw [uniquify_of_mem hdr m c k hc, if_pos hc]
  · rw [uniquify_of_not_mem hdr m c k hc, if_neg hc]

theorem insertIDs_grows (sc : Scanner) (flag : Bool) (lines : List Str) (st : State) :
    insertIDs st.trace <+: insertIDs (runLines sc flag st lines).trace := by
  induction lines generalizing st with
  | nil => exact List.prefix_refl _
  | cons l ls ih =>
    rw [runLines_cons]
    refine List.IsPrefix.trans ?_ (ih (step sc flag st l))
    rcases header_cases flag l with ⟨hh, _, _⟩ | ⟨_, ha, _⟩ | ⟨_, _, hr⟩
    · rw [(step_nonheader_frame sc flag st l hh).2.2.2.2.2.1]
    · rw [(step_accepted_fields sc flag st l ha).2.2.2.2.1]
      exact List.prefix_append _ _
    · rw [step_rejected sc flag st l hr]
      simp [(flushOnHeader_frame st).2.2.2.1]

/-- C2, amended to at most 256 accepted headers: a parse that starts from an empty `chrMap`
(either value of the flag, any other containers) ends with exactly `N` entries in `chrMap`,
where `N` is the number of accepted header lines; the keys are exactly `0..N-1`; exactly `N`
identifiers were handed to `insert`; and for every accepted header line of the input, the
key equal to the number of headers accepted before it holds the identifier that the
uniqueness loop produced at that header. -/
theorem C2_chrMap_entries_upto_256 (sc : Scanner) (humanOptFlag : Bool)
    (cpgTab cpgStartTab : List CpG) (genSeq : List Str) (lines : List Str)
    (hN : acceptedCount humanOptFlag lines ≤ 256) :
    (readReferenceFrom sc humanOptFlag (initWith cpgTab cpgStartTab genSeq []) lines).chrMap.length
      = acceptedCount humanOptFlag lines
    ∧ (readReferenceFrom sc humanOptFlag (initWith cpgTab cpgStartTab genSeq []) lines).chrMap.map
        Prod.fst = List.range (acceptedCount humanOptFlag lines)
    ∧ (insertIDs
        (readReferenceFrom sc humanOptFlag (initWith cpgTab cpgStartTab genSeq []) lines).trace).length
      = acceptedCount humanOptFlag lines
    ∧ ∀ (pre : List Str) (line : Str) (rest : List Str), lines = pre ++ line :: rest →
        isAccepted humanOptFlag line = true →
        mapFind (readReferenceFrom sc humanOptFlag (initWith cpgTab cpgStartTab genSeq [])
            lines).chrMap (acceptedCount humanOptFlag pre)
          = some (uniquify (chrHeaderOf line)
              (runLines sc humanOptFlag (initWith cpgTab cpgStartTab genSeq []) pre).chrMap
              (candidateID line)
              (runLines sc humanOptFlag (initWith cpgTab cpgStartTab genSeq []) pre).unIDCount).1 := by
  have hinv := Inv_runLines_initWith sc humanOptFlag cpgTab cpgStartTab genSeq [] lines
  have hlen := hinv.ids_len
  have hmap := hinv.map rfl
  rw [List.take_of_length_le (by omega)] at hmap
  rw [readReferenceFrom, (finish_frame _).1, (finish_frame _).2.1, hmap]
  refine ⟨by rw [List.enum_length, hlen], by rw [List.enum_map_fst, hlen], hlen, ?_⟩
  intro pre line rest hsplit ha
  have hpre := (Inv_runLines_initWith sc humanOptFlag cpgTab cpgStartTab genSeq [] pre).ids_len
  have hgrow := insertIDs_grows sc humanOptFlag rest
    (step sc humanOptFlag (runLines sc humanOptFlag (initWith cpgTab cpgStartTab genSeq []) pre)
      line)
  rw [← runLines_cons, ← runLines_append, ← hsplit,
    (step_accepted_fields sc humanOptFlag _ line ha).2.2.2.2.1] at hgrow
  obtain ⟨t, ht⟩ := hgrow
  rw [mapFind_enum, ← ht, uniquify_fst, List.append_assoc,
    List.getElem?_append_right (by omega), hpre]
  simp

/-- C2 (amended) at a concrete input: three headers, one of them rejected by the whitelist;
the second accepted header collides and is registered under key 1 as `chr1_1`. -/
theorem C2_chrMap_entries_upto_256_witness :
    acceptedCount true [">chr1".toList, "ACGT".toList, ">scaffold7".toList, ">chr1 x".toList] ≤ 256
    ∧ (readReferenceFrom appendScanner true (initWith [] [] [] [])
        [">chr1".toList, "ACGT".toList, ">scaffold7".toList, ">chr1 x".toList]).chrMap.map
        Prod.fst = List.range
          (acceptedCount true
            [">chr1".toList, "ACGT".toList, ">scaffold7".toList, ">chr1 x".toList])
    ∧ mapFind (readReferenceFrom appendScanner true (initWith [] [] [] [])
        [">chr1".toList, "ACGT".toList, ">scaffold7".toList, ">chr1 x".toList]).chrMap 1
      = some "chr1_1".toList :=
  ⟨by decide,
    (C2_chrMap_entries_upto_256 appendScanner true [] [] []
      [">chr1".toList, "ACGT".toList, ">scaffold7".toList, ">chr1 x".toList] (by decide)).2.1,
    ((C2_chrMap_entries_upto_256 appendScanner true [] [] []
      [">chr1".toList, "ACGT".toList, ">scaffold7".toList, ">chr1 x".toList] (by decide)).2.2.2
      [">chr1".toList, "ACGT".toList, ">scaffold7".toList] ">chr1 x".toList [] (by decide)
      (by decide)).trans (by decide)⟩

/-! ## C3: uniqueness of the registered identifiers -/

/-- C3 at its failing input (`humanOptFlag = false`, headers `>chr1_1`, `>chr1`, `>chr1`): the
third header is renamed to `chr1_1`, which the first header already registered, so two keys
hold the same identifier. -/
theorem C3_renamed_identifier_collides :
    (readReference appendScanner false
        [">chr1_1".toList, ">chr1".toList, ">chr1".toList]).chrMap
      = [(0, "chr1_1".toList), (1, "chr1".toList), (2, "chr1_1".toList)]
    ∧ ¬ (mapValues (readReference appendScanner false
        [">chr1_1".toList, ">chr1".toList, ">chr1".toList]).chrMap).Nodup := by
  decide

/-! ## C4: resolution and registration of an accepted header -/

theorem insertIDs_origin (sc : Scanner) (flag : Bool) (lines : List Str) (st : State) :
    ∀ chrID ∈ insertIDs (runLines sc flag st lines).trace,
      chrID ∈ insertIDs st.trace
      ∨ ∃ l ∈ lines, isAccepted flag l = true
          ∧ (chrID = candidateID l ∨ ∃ k, chrID = candidateID l ++ ['_'] ++ to_string k) := by
  induction lines generalizing st with
  | nil => intro c hc; exact Or.inl hc
  | cons l ls ih =>
    intro c hc
    rw [runLines_cons] at hc
    rcases ih _ c hc with h | ⟨l', hl', ha', h'⟩
    · rcases header_cases flag l with ⟨hh, _, _⟩ | ⟨_, ha, _⟩ | ⟨_, _, hr⟩
      · rw [(step_nonheader_frame sc flag st l hh).2.2.2.2.2.1] at h
        exact Or.inl h
      · rw [(step_accepted_fields sc flag st l ha).2.2.2.2.1, List.mem_append,
          List.mem_singleton] at h
        rcases h with h | h
        · exact Or.inl h
        · refine Or.inr ⟨l, List.mem_cons_self _ _, ha, ?_⟩
          rw [h, resolve]
          split
          · exact Or.inr ⟨_, rfl⟩
          · exact Or.inl rfl
      · rw [step_rejected sc flag st l hr] at h
        simp only [(flushOnHeader_frame st).2.2.2.1] at h
        exact Or.inl h
    · exact Or.inr ⟨l', List.mem_cons_of_mem _ hl', ha', h'⟩

theorem mapValues_subset_insertIDs (g0 : Nat) (st : State) (n : Nat) (h : Inv g0 [] st n) :
    ∀ v ∈ mapValues st.chrMap, v ∈ insertIDs st.trace := by
  intro v hv
  rw [mapValues, h.map rfl, List.mem_map] at hv
  obtain ⟨⟨i, x⟩, hmem, rfl⟩ := hv
  exact List.mem_of_mem_take (List.snd_mem_of_mem_enum hmem)

/-- C4 fails as stated: after 256 accepted headers `>a` the header `>b`, whose candidate `b`
equals no identifier in `chrMap`, is not registered: its 8-bit key is 0, which is taken. -/
theorem C4_fails_at_257th_header :
    isAccepted false ">b".toList = true
    ∧ candidateID ">b".toList = "b".toList
    ∧ "b".toList ∉ mapValues
        (runLines appendScanner false init (List.replicate 256 ">a".toList)).chrMap
    ∧ "b".toList ∉ mapValues
        (readReference appendScanner false
          (List.replicate 256 ">a".toList ++ [">b".toList])).chrMap := by
  have hcount : acceptedCount false (List.replicate 256 ">a".toList) = 256 := by
    rw [acceptedCount, List.countP_replicate]; rfl
  have hpre := Inv_runLines appendScanner false (List.replicate 256 ">a".toList)
  have hall := Inv_runLines appendScanner false (List.replicate 256 ">a".toList ++ [">b".toList])
  have hb : "b".toList ∉ mapValues
      (runLines appendScanner false init (List.replicate 256 ">a".toList)).chrMap := by
    intro hmem
    have h1 := mapValues_subset_insertIDs _ _ _ hpre _ hmem
    rcases insertIDs_origin appendScanner false _ init _ h1 with h | ⟨l, hl, _, h⟩
    · simp [init, insertIDs] at h
    · rw [List.eq_of_mem_replicate hl] at h
      have hc : candidateID ">a".toList = "a".toList := by decide
      rw [hc] at h
      rcases h with h | ⟨k, h⟩
      · exact absurd h (by decide)
      · have := congrArg List.head? h
        simp at this
  refine ⟨by decide, by decide, hb, ?_⟩
  have hsame : (readReference appendScanner false
      (List.replicate 256 ">a".toList ++ [">b".toList])).chrMap
      = (runLines appendScanner false init (List.replicate 256 ">a".toList)).chrMap := by
    rw [readReference, readReferenceFrom, (finish_frame _).1, hall.map rfl, hpre.map rfl]
    have hlen := hpre.ids_len
    rw [hcount] at hlen
    have hsplit : insertIDs (runLines appendScanner false init
        (List.replicate 256 ">a".toList ++ [">b".toList])).trace
        = insertIDs (runLines appendScanner false init (List.replicate 256 ">a".toList)).trace
          ++ [resolve (runLines appendScanner false init
              (List.replicate 256 ">a".toList)).chrMap (candidateID ">b".toList)
              (runLines appendScanner false init (List.replicate 256 ">a".toList)).unIDCount] := by
      rw [runLines_append, runLines_cons, runLines_nil]
      exact (step_accepted_fields appendScanner false _ ">b".toList (by decide)).2.2.2.2.1
    rw [hsplit, List.take_append_of_le_length (by omega)]
  rw [hsame]
  exact hb

/-- Two records both headed `>chr1 extra text`, each with any non-header lines. -/
theorem two_records_same_header (sc : Scanner) (flag : Bool) (t1 t2 : List CpG) (g : List Str)
    (body1 body2 : List Str) (h1 : ∀ l ∈ body1, isHeaderLine l = false)
    (h2 : ∀ l ∈ body2, isHeaderLine l = false) :
    (readReferenceFrom sc flag (initWith t1 t2 g [])
        (">chr1 extra text".toList :: body1 ++ ">chr1 extra text".toList :: body2)).chrMap
      = [(0, "chr1".toList), (1, "chr1_1".toList)]
    ∧ warnings (readReferenceFrom sc flag (initWith t1 t2 g [])
        (">chr1 extra text".toList :: body1 ++ ">chr1 extra text".toList :: body2)).trace
      = [("chr1 extra text".toList, "chr1_1".toList)] := by
  have ha : isAccepted flag ">chr1 extra text".toList = true := by cases flag <;> decide
  have hc : candidateID ">chr1 extra text".toList = "chr1".toList := by decide
  have hh : chrHeaderOf ">chr1 extra text".toList = "chr1 extra text".toList := by decide
  rw [readReferenceFrom, (finish_frame _).1, (finish_frame _).2.1]
  have hsplit : (">chr1 extra text".toList :: body1 ++ ">chr1 extra text".toList :: body2)
      = [">chr1 extra text".toList] ++ body1 ++ [">chr1 extra text".toList] ++ body2 := by simp
  rw [hsplit, runLines_append, runLines_append, runLines_append]
  generalize hs1 : runLines sc flag (initWith t1 t2 g []) [">chr1 extra text".toList] = s1
  have e1 : s1 = step sc flag (initWith t1 t2 g []) ">chr1 extra text".toList := hs1.symm
  obtain ⟨a1, a2, a3, _, _, _, a7⟩ :=
    step_accepted_fields sc flag (initWith t1 t2 g []) ">chr1 extra text".toList ha
  have i1 : (initWith t1 t2 g []).chrMap = [] := rfl
  have i2 : (initWith t1 t2 g []).chrIndex = 0 := rfl
  have i3 : (initWith t1 t2 g []).unIDCount = 1 := rfl
  have i4 : (initWith t1 t2 g []).trace = [] := rfl
  simp only [← e1, i1, i2, i3, i4, hc, hh] at a1 a2 a3 a7
  have a1' : s1.chrMap = [(0, "chr1".toList)] := by rw [a1]; decide
  have a2' : s1.chrIndex = 1 := by rw [a2]; decide
  have a3' : s1.unIDCount = 1 := by rw [a3]; decide
  have a7' : warnings s1.trace = [] := by rw [a7]; decide
  obtain ⟨b1, b2, b3, _, _, _, _, b8⟩ := runLines_nonheader_frame sc flag body1 h1 s1
  generalize runLines sc flag s1 body1 = s1' at b1 b2 b3 b8
  rw [a1'] at b1; rw [a2'] at b2; rw [a3'] at b3; rw [a7'] at b8
  generalize hs2 : runLines sc flag s1' [">chr1 extra text".toList] = s2
  have e2 : s2 = step sc flag s1' ">chr1 extra text".toList := hs2.symm
  obtain ⟨c1, _, _, _, _, _, c7⟩ := step_accepted_fields sc flag s1' ">chr1 extra text".toList ha
  simp only [← e2, hc, hh, b1, b2, b3, b8] at c1 c7
  obtain ⟨d1, _, _, _, _, _, _, d8⟩ := runLines_nonheader_frame sc flag body2 h2 s2
  rw [d1, d8, c1, c7]
  exact ⟨by decide, by decide⟩

/-- C4, amended to headers accepted while fewer than 256 have been accepted before: in a
parse starting from an empty `chrMap`, such a header whose candidate equals no identifier
in `chrMap` is registered (under the next key) with the candidate unchanged and no warning;
one whose candidate equals an identifier in `chrMap` is registered as candidate, `_`, and the
decimal of 1 plus the number of earlier renames, with exactly one warning. Two records both
headed `>chr1 extra text` are registered as `chr1` and `chr1_1` with one warning in total. -/
theorem C4_resolution_below_256 (sc : Scanner) (humanOptFlag : Bool) (cpgTab cpgStartTab : List CpG)
    (genSeq : List Str) (pre : List Str) (line : Str)
    (ha : isAccepted humanOptFlag line = true) (hN : acceptedCount humanOptFlag pre < 256) :
    (candidateID line
        ∉ mapValues (runLines sc humanOptFlag (initWith cpgTab cpgStartTab genSeq []) pre).chrMap →
      mapFind (step sc humanOptFlag
          (runLines sc humanOptFlag (initWith cpgTab cpgStartTab genSeq []) pre) line).chrMap
          (acceptedCount humanOptFlag pre) = some (candidateID line)
      ∧ warnings (step sc humanOptFlag
          (runLines sc humanOptFlag (initWith cpgTab cpgStartTab genSeq []) pre) line).trace
        = warnings (runLines sc humanOptFlag (initWith cpgTab cpgStartTab genSeq []) pre).trace)
    ∧ (candidateID line
        ∈ mapValues (runLines sc humanOptFlag (initWith cpgTab cpgStartTab genSeq []) pre).chrMap →
      mapFind (step sc humanOptFlag
          (runLines sc humanOptFlag (initWith cpgTab cpgStartTab genSeq []) pre) line).chrMap
          (acceptedCount humanOptFlag pre)
        = some (candidateID line ++ ['_'] ++ to_string (1 + (warnings
            (runLines sc humanOptFlag (initWith cpgTab cpgStartTab genSeq []) pre).trace).length))
      ∧ warnings (step sc humanOptFlag
          (runLines sc humanOptFlag (initWith cpgTab cpgStartTab genSeq []) pre) line).trace
        = warnings (runLines sc humanOptFlag (initWith cpgTab cpgStartTab genSeq []) pre).trace
          ++ [(chrHeaderOf line, candidateID line ++ ['_'] ++ to_string (1 + (warnings
            (runLines sc humanOptFlag (initWith cpgTab cpgStartTab genSeq []) pre).trace).length))])
    ∧ (∀ body1 body2 : List Str, (∀ l ∈ body1, isHeaderLine l = false) →
        (∀ l ∈ body2, isHeaderLine l = false) →
        (readReferenceFrom sc humanOptFlag (initWith cpgTab cpgStartTab genSeq [])
            (">chr1 extra text".toList :: body1 ++ ">chr1 extra text".toList :: body2)).chrMap
          = [(0, "chr1".toList), (1, "chr1_1".toList)]
        ∧ warnings (readReferenceFrom sc humanOptFlag (initWith cpgTab cpgStartTab genSeq [])
            (">chr1 extra text".toList :: body1 ++ ">chr1 extra text".toList :: body2)).trace
          = [("chr1 extra text".toList, "chr1_1".toList)]) := by
  have hinv := Inv_runLines_initWith sc humanOptFlag cpgTab cpgStartTab genSeq [] pre
  have hw := warnings_length_le sc humanOptFlag pre (initWith cpgTab cpgStartTab genSeq [])
  generalize runLines sc humanOptFlag (initWith cpgTab cpgStartTab genSeq []) pre = st at hinv hw ⊢
  have hw0 : (warnings (initWith cpgTab cpgStartTab genSeq []).trace).length = 0 := rfl
  have hinv' := Inv_step sc humanOptFlag _ _ st _ line hinv
  simp only [ha, if_true] at hinv'
  obtain ⟨_, _, _, _, e5, _, e7⟩ := step_accepted_fields sc humanOptFlag st line ha
  have hlen := hinv.ids_len
  have hcnt : st.unIDCount = 1 + (warnings st.trace).length := by
    rw [hinv.cnt]; apply Nat.mod_eq_of_lt; omega
  have hfind : mapFind (step sc humanOptFlag st line).chrMap (acceptedCount humanOptFlag pre)
      = some (resolve st.chrMap (candidateID line) st.unIDCount) := by
    rw [hinv'.map rfl, e5, List.take_of_length_le (by simp; omega), mapFind_enum, ← hlen]
    simp
  refine ⟨fun hc => ?_, fun hc => ?_, fun b1 b2 h1 h2 =>
    two_records_same_header sc humanOptFlag cpgTab cpgStartTab genSeq b1 b2 h1 h2⟩
  · rw [hfind, e7]
    simp [resolve, hc]
  · rw [hfind, e7, ← hcnt]
    simp [resolve, hc]

/-- C4 (amended) at a concrete input: the second `>chr1` header of a whitelisted parse. -/
theorem C4_resolution_below_256_witness :
    isAccepted true ">chr1 extra text".toList = true
    ∧ acceptedCount true [">chr1 extra text".toList, "ACGT".toList] < 256
    ∧ mapFind (step appendScanner true
          (runLines appendScanner true (initWith [] [] [] [])
            [">chr1 extra text".toList, "ACGT".toList])
          ">chr1 extra text".toList).chrMap
        (acceptedCount true [">chr1 extra text".toList, "ACGT".toList])
      = some "chr1_1".toList :=
  ⟨by decide, by decide,
    ((C4_resolution_below_256 appendScanner true [] [] []
      [">chr1 extra text".toList, "ACGT".toList] ">chr1 extra text".toList (by decide)
      (by decide)).2.1 (by decide)).1.trans (by decide)⟩

/-! ## C5: the whitelist test -/

/-- C5: `isPrimaryHG s` is true exactly when `s` is one of the 28 names `chr1` .. `chr22`,
`chrX`, `chrY`, `chrM`, `chrMT`, `lambda`, `pUC19`; the comparison is whole-string and
case-sensitive, so `Chr1`, `chr01`, `chr0`, `chr23`, `chr1 `, `chr1_1` and the empty string
are rejected. -/
theorem C5_isPrimaryHG_exact_whitelist :
    (∀ s : Str, isPrimaryHG s = true ↔ s ∈ whitelistNames)
    ∧ whitelistNames.length = 28 ∧ whitelistNames.Nodup
    ∧ isPrimaryHG "Chr1".toList = false ∧ isPrimaryHG "chr01".toList = false
    ∧ isPrimaryHG "chr0".toList = false ∧ isPrimaryHG "chr23".toList = false
    ∧ isPrimaryHG "chr1 ".toList = false ∧ isPrimaryHG "chr1_1".toList = false
    ∧ isPrimaryHG "".toList = false := by
  refine ⟨fun s => ?_, by decide, by decide, by decide, by decide, by decide, by decide,
    by decide, by decide, by decide⟩
  rw [isPrimaryHG_eq_decide, decide_eq_true_eq]

/-! ## C6: a rejected record -/

theorem runLines_dead_nonheader (sc : Scanner) (flag : Bool) (body : List Str)
    (hb : ∀ l ∈ body, isHeaderLine l = false) (st : State) (hc : st.contFlag = false) :
    runLines sc flag st body = st := by
  induction body with
  | nil => rfl
  | cons l ls ih =>
    rw [runLines_cons,
      step_nonheader_dead sc flag st l (hb l (List.mem_cons_self _ _)) hc]
    exact ih (fun x hx => hb x (List.mem_cons_of_mem _ hx))

/-- C6: with `humanOptFlag` true, a header whose candidate is not whitelisted, met at any
point of a parse (from any containers), leaves `chrMap`, `chrIndex`, the two CpG tables and
the trace (so no `readLine` call, no insert, no warning) as they were, marks no record live,
moves at most the previous live buffer into `genSeq`, and every following non-header line
leaves the whole state unchanged; the end-of-stream flush then adds nothing either. -/
theorem C6_rejected_record_excluded (sc : Scanner) (cpgTab cpgStartTab : List CpG)
    (genSeq : List Str) (chrMap : List (Nat × Str)) (pre : List Str) (line : Str)
    (body : List Str) (hh : isHeaderLine line = true)
    (hw : isPrimaryHG (candidateID line) = false)
    (hb : ∀ l ∈ body, isHeaderLine l = false) :
    (step sc true (runLines sc true (initWith cpgTab cpgStartTab genSeq chrMap) pre) line).chrMap
      = (runLines sc true (initWith cpgTab cpgStartTab genSeq chrMap) pre).chrMap
    ∧ (step sc true (runLines sc true (initWith cpgTab cpgStartTab genSeq chrMap) pre)
        line).chrIndex
      = (runLines sc true (initWith cpgTab cpgStartTab genSeq chrMap) pre).chrIndex
    ∧ (step sc true (runLines sc true (initWith cpgTab cpgStartTab genSeq chrMap) pre)
        line).contFlag = false
    ∧ (step sc true (runLines sc true (initWith cpgTab cpgStartTab genSeq chrMap) pre)
        line).trace
      = (runLines sc true (initWith cpgTab cpgStartTab genSeq chrMap) pre).trace
    ∧ (step sc true (runLines sc true (initWith cpgTab cpgStartTab genSeq chrMap) pre)
        line).cpgTab
      = (runLines sc true (initWith cpgTab cpgStartTab genSeq chrMap) pre).cpgTab
    ∧ (step sc true (runLines sc true (initWith cpgTab cpgStartTab genSeq chrMap) pre)
        line).cpgStartTab
      = (runLines sc true (initWith cpgTab cpgStartTab genSeq chrMap) pre).cpgStartTab
    ∧ (step sc true (runLines sc true (initWith cpgTab cpgStartTab genSeq chrMap) pre)
        line).genSeq
      = (if (runLines sc true (initWith cpgTab cpgStartTab genSeq chrMap) pre).contFlag then
          (runLines sc true (initWith cpgTab cpgStartTab genSeq chrMap) pre).genSeq
            ++ [(runLines sc true (initWith cpgTab cpgStartTab genSeq chrMap) pre).seq]
        else (runLines sc true (initWith cpgTab cpgStartTab genSeq chrMap) pre).genSeq)
    ∧ runLines sc true
        (step sc true (runLines sc true (initWith cpgTab cpgStartTab genSeq chrMap) pre) line)
        body
      = step sc true (runLines sc true (initWith cpgTab cpgStartTab genSeq chrMap) pre) line
    ∧ readReferenceFrom sc true (initWith cpgTab cpgStartTab genSeq chrMap)
        (pre ++ line :: body)
      = step sc true (runLines sc true (initWith cpgTab cpgStartTab genSeq chrMap) pre)
          line := by
  have hidx : (runLines sc true (initWith cpgTab cpgStartTab genSeq chrMap) pre).chrIndex
      < 2 ^ 8 :=
    runLines_chrIndex_lt sc true pre _ (by simp [initWith, init])
  have hrun : runLines sc true (initWith cpgTab cpgStartTab genSeq chrMap) (pre ++ line :: body)
      = runLines sc true
          (step sc true (runLines sc true (initWith cpgTab cpgStartTab genSeq chrMap) pre) line)
          body := by
    rw [runLines_append, runLines_cons]
  rw [readReferenceFrom, hrun]
  generalize runLines sc true (initWith cpgTab cpgStartTab genSeq chrMap) pre = st at hidx ⊢
  have hr : isRejected true line = true := by simp [isRejected, hh, hw]
  obtain ⟨r1, r2, _, r4, r5, r6, r7, r8, _⟩ := step_rejected_fields sc true st line hr hidx
  have hdead := runLines_dead_nonheader sc true body hb (step sc true st line) r4
  refine ⟨r1, r2, r4, r5, r6, r7, r8, hdead, ?_⟩
  rw [hdead, finish, r4]
  simp

/-- C6 at a concrete input: `>chrUn_random` after a live `chr1` record; its two lines hold
the motif and are dropped. -/
theorem C6_rejected_record_excluded_witness :
    isHeaderLine ">chrUn_random".toList = true
    ∧ isPrimaryHG (candidateID ">chrUn_random".toList) = false
    ∧ readReferenceFrom appendScanner true (initWith [] [] [] [])
        ([">chr1".toList, "AC".toList] ++ ">chrUn_random".toList :: ["CGCG".toList, "ACG".toList])
      = step appendScanner true
          (runLines appendScanner true (initWith [] [] [] []) [">chr1".toList, "AC".toList])
          ">chrUn_random".toList
    ∧ (readReferenceFrom appendScanner true (initWith [] [] [] [])
        ([">chr1".toList, "AC".toList]
          ++ ">chrUn_random".toList :: ["CGCG".toList, "ACG".toList])).genSeq
      = ["AC".toList] :=
  ⟨by decide, by decide,
    (C6_rejected_record_excluded appendScanner [] [] [] [] [">chr1".toList, "AC".toList]
      ">chrUn_random".toList ["CGCG".toList, "ACG".toList] (by decide) (by decide)
      (by decide)).2.2.2.2.2.2.2.2,
    by decide⟩

/-! ## C8: one buffer per accepted header -/

theorem step_genSeq (sc : Scanner) (flag : Bool) (st : State) (line : Str) :
    (step sc flag st line).genSeq
      = (if isHeaderLine line && st.contFlag then st.genSeq ++ [st.seq] else st.genSeq) := by
  rcases header_cases flag line with ⟨hh, _, _⟩ | ⟨hh, ha, _⟩ | ⟨hh, _, hr⟩
  · rw [(step_nonheader_frame sc flag st line hh).2.2.2.2.1]; simp [hh]
  · rw [step_accepted sc flag st line ha]
    cases hcf : st.contFlag <;> simp [flushOnHeader, hcf, hh]
  · rw [step_rejected sc flag st line hr]
    cases hcf : st.contFlag <;> simp [flushOnHeader, hcf, hh]

theorem step_contFlag (sc : Scanner) (flag : Bool) (st : State) (line : Str) :
    (step sc flag st line).contFlag
      = (if isHeaderLine line then isAccepted flag line else st.contFlag) := by
  rcases header_cases flag line with ⟨hh, _, _⟩ | ⟨hh, ha, _⟩ | ⟨hh, ha, hr⟩
  · rw [(step_nonheader_frame sc flag st line hh).2.2.2.1]; simp [hh]
  · rw [(step_accepted_fields sc flag st line ha).2.2.2.1]; simp [hh, ha]
  · rw [step_rejected sc flag st line hr]; simp [hh, ha]

/-- C8: in a parse from an empty `genSeq` (any other containers), a record becomes live
exactly at an accepted header; a loop iteration adds to `genSeq` only at a header line met
while a record is live, and then exactly the live buffer; the end-of-stream flush adds
exactly the live buffer if there is one. Hence after any prefix of the input the length of
`genSeq`, plus one if a record is live, is the number of headers accepted so far, and the
final length of `genSeq` is the number of accepted header lines. -/
theorem C8_one_buffer_per_accepted_header (sc : Scanner) (humanOptFlag : Bool)
    (cpgTab cpgStartTab : List CpG) (chrMap : List (Nat × Str)) (pre rest : List Str) :
    (readReferenceFrom sc humanOptFlag (initWith cpgTab cpgStartTab [] chrMap)
        (pre ++ rest)).genSeq.length
      = acceptedCount humanOptFlag (pre ++ rest)
    ∧ (runLines sc humanOptFlag (initWith cpgTab cpgStartTab [] chrMap) pre).genSeq.length
        + (if (runLines sc humanOptFlag (initWith cpgTab cpgStartTab [] chrMap) pre).contFlag
            then 1 else 0)
      = acceptedCount humanOptFlag pre
    ∧ (∀ (st : State) (line : Str),
        (step sc humanOptFlag st line).genSeq
            = (if isHeaderLine line && st.contFlag then st.genSeq ++ [st.seq] else st.genSeq)
        ∧ (step sc humanOptFlag st line).contFlag
            = (if isHeaderLine line then isAccepted humanOptFlag line else st.contFlag))
    ∧ (∀ st : State,
        (finish st).genSeq = (if st.contFlag then st.genSeq ++ [st.seq] else st.genSeq)) := by
  have hfin := (Inv_runLines_initWith sc humanOptFlag cpgTab cpgStartTab [] chrMap
    (pre ++ rest)).gen
  have hpre := (Inv_runLines_initWith sc humanOptFlag cpgTab cpgStartTab [] chrMap pre).gen
  refine ⟨?_, by simpa using hpre,
    fun st line => ⟨step_genSeq sc humanOptFlag st line, step_contFlag sc humanOptFlag st line⟩,
    fun st => by unfold finish; split <;> simp⟩
  rw [readReferenceFrom, finish]
  generalize runLines sc humanOptFlag (initWith cpgTab cpgStartTab [] chrMap) (pre ++ rest) = st
    at hfin ⊢
  cases hcf : st.contFlag
  · simpa [hcf] using hfin
  · simpa [hcf] using hfin

/-! ## C9: `chrMap` only grows -/

theorem mapInsert_grows (m : List (Nat × Str)) (key : Nat) (v : Str) :
    m <+: mapInsert m key v := by
  unfold mapInsert
  split
  · exact List.prefix_refl m
  · exact List.prefix_append m _

theorem step_chrMap_grows (sc : Scanner) (flag : Bool) (st : State) (line : Str) :
    st.chrMap <+: (step sc flag st line).chrMap := by
  rcases header_cases flag line with ⟨hh, _, _⟩ | ⟨_, ha, _⟩ | ⟨_, _, hr⟩
  · rw [(step_nonheader_frame sc flag st line hh).1]
  · rw [(step_accepted_fields sc flag st line ha).1]; exact mapInsert_grows _ _ _
  · rw [step_rejected sc flag st line hr]
    simp [(flushOnHeader_frame st).1]

theorem mapFind_mono (m m' : List (Nat × Str)) (h : m <+: m') (key : Nat) (v : Str)
    (hf : mapFind m key = some v) : mapFind m' key = some v := by
  obtain ⟨t, rfl⟩ := h
  unfold mapFind at hf ⊢
  rw [List.find?_append]
  cases hfind : m.find? (fun p => p.1 == key) with
  | none => rw [hfind] at hf; simp at hf
  | some p => rw [hfind] at hf; simpa using hf

/-- C9: for every state (any `chrMap`, also one that was non-empty on entry or already holds
256 keys) and every line, the `chrMap` before the line is an initial segment of the `chrMap`
after it: every pair present before is present after, and every key that was bound is bound
to the same identifier, so no entry is overwritten or removed. The same holds across any
number of lines and the end of the parse. -/
theorem C9_chrMap_append_only (sc : Scanner) (humanOptFlag : Bool) (st : State) (line : Str)
    (lines : List Str) :
    st.chrMap <+: (step sc humanOptFlag st line).chrMap
    ∧ (∀ p, p ∈ st.chrMap → p ∈ (step sc humanOptFlag st line).chrMap)
    ∧ (∀ key chrID, mapFind st.chrMap key = some chrID →
        mapFind (step sc humanOptFlag st line).chrMap key = some chrID)
    ∧ st.chrMap <+: (readReferenceFrom sc humanOptFlag st lines).chrMap
    ∧ (∀ key chrID, mapFind st.chrMap key = some chrID →
        mapFind (readReferenceFrom sc humanOptFlag st lines).chrMap key = some chrID) := by
  have h1 := step_chrMap_grows sc humanOptFlag st line
  have h2 : st.chrMap <+: (readReferenceFrom sc humanOptFlag st lines).chrMap := by
    rw [readReferenceFrom, (finish_frame _).1]
    induction lines generalizing st with
    | nil => exact List.prefix_refl _
    | cons l ls ih =>
      rw [runLines_cons]
      exact (step_chrMap_grows sc humanOptFlag st l).trans (ih _ (step_chrMap_grows _ _ _ _))
  exact ⟨h1, fun p hp => h1.subset hp, fun k v hf => mapFind_mono _ _ h1 k v hf, h2,
    fun k v hf => mapFind_mono _ _ h2 k v hf⟩

/-- C9 at a concrete input: a map that holds key 0 on entry; the header `>new` computes key 0
again and the old entry stays. -/
theorem C9_chrMap_append_only_witness :
    mapFind (initWith [] [] [] [(0, "old".toList)]).chrMap 0 = some "old".toList
    ∧ mapFind (step appendScanner false (initWith [] [] [] [(0, "old".toList)])
        ">new".toList).chrMap 0 = some "old".toList :=
  ⟨by decide,
    (C9_chrMap_append_only appendScanner false (initWith [] [] [] [(0, "old".toList)])
      ">new".toList []).2.2.1 0 "old".toList (by decide)⟩

/-! ## C10: the line `>` -/

/-- C10 fails as stated: in the input `>chr1`, `>` the lone marker is handed to the line
scanner (with record number 1) and, with a scanner that appends its line, ends up in the
buffer of `chr1`. -/
theorem C10_lone_marker_is_scanned :
    scans (readReference appendScanner false [">chr1".toList, ">".toList]).trace
      = [(">".toList, false, 1)]
    ∧ (readReference appendScanner false [">chr1".toList, ">".toList]).genSeq
      = [">".toList] := by
  decide

/-- C10, amended: the line `>` is never a record boundary and is treated like every other
non-header line. While a record is live it is handed to the line scanner, once and
unchanged, and the scanner's results are stored; while no record is live it leaves the whole
state unchanged and the scanner is not invoked. -/
theorem C10_lone_marker_is_a_sequence_line (sc : Scanner) (humanOptFlag : Bool) (st : State) :
    isHeaderLine ['>'] = false
    ∧ step sc humanOptFlag st ['>']
      = (if st.contFlag then
          { st with
            lastC := (sc ['>'] st.lastC st.chrIndex st.cpgTab st.cpgStartTab st.seq).lastC
            cpgTab := (sc ['>'] st.lastC st.chrIndex st.cpgTab st.cpgStartTab st.seq).cpgTab
            cpgStartTab :=
              (sc ['>'] st.lastC st.chrIndex st.cpgTab st.cpgStartTab st.seq).cpgStartTab
            seq := (sc ['>'] st.lastC st.chrIndex st.cpgTab st.cpgStartTab st.seq).seq
            trace := st.trace ++ [Event.scan ['>'] st.lastC st.chrIndex] }
        else st) := by
  refine ⟨rfl, ?_⟩
  cases hcf : st.contFlag
  · rw [step_nonheader_dead sc humanOptFlag st ['>'] rfl hcf]; simp [hcf]
  · rw [step_nonheader_live sc humanOptFlag st ['>'] rfl hcf]; simp [hcf]

/-! ## C11: a marker followed by a blank -/

theorem blank_header (c : Char) (rest : Str) (hc : c = ' ' ∨ c = '\t') :
    isHeaderLine ('>' :: c :: rest) = true ∧ candidateID ('>' :: c :: rest) = []
    ∧ isAccepted false ('>' :: c :: rest) = true ∧ isRejected true ('>' :: c :: rest) = true := by
  have h1 : isHeaderLine ('>' :: c :: rest) = true := rfl
  have h2 : candidateID ('>' :: c :: rest) = [] := by
    rcases hc with rfl | rfl <;>
      simp [candidateID, chrHeaderOf, headerPos, find_first_of, find_first_of_from]
  refine ⟨h1, h2, ?_, ?_⟩
  · simp [isAccepted, h1]
  · rw [isRejected, h1, h2]; decide

/-- C11 fails as stated: after `>chr1`, `AC` the line `> description` is processed as a
header with the empty candidate. With `humanOptFlag` false it moves the live buffer into
`genSeq`, registers the empty identifier under key 1 and advances the counter to 2; with
`humanOptFlag` true it moves the live buffer into `genSeq` and leaves no record live. -/
theorem C11_blank_header_is_a_boundary :
    (runLines appendScanner false init [">chr1".toList, "AC".toList]).genSeq = []
    ∧ (runLines appendScanner false init
        [">chr1".toList, "AC".toList, "> description".toList]).genSeq = ["AC".toList]
    ∧ (runLines appendScanner false init
        [">chr1".toList, "AC".toList, "> description".toList]).chrMap
      = [(0, "chr1".toList), (1, [])]
    ∧ (runLines appendScanner false init [">chr1".toList, "AC".toList]).chrIndex = 1
    ∧ (runLines appendScanner false init
        [">chr1".toList, "AC".toList, "> description".toList]).chrIndex = 2
    ∧ (runLines appendScanner true init [">chr1".toList, "AC".toList]).contFlag = true
    ∧ (runLines appendScanner true init
        [">chr1".toList, "AC".toList, "> description".toList]).contFlag = false
    ∧ (runLines appendScanner true init
        [">chr1".toList, "AC".toList, "> description".toList]).genSeq = ["AC".toList] := by
  decide

/-- C11, amended: a line that starts with the marker immediately followed by a space or a
tab is a header line whose candidate identifier is the empty string, and it is a record
boundary. At any point of a parse it moves the live buffer, if a record is live, into
`genSeq`. With `humanOptFlag` true it is rejected: `chrMap`, the record counter and the trace
are unchanged and no record is live afterwards. With `humanOptFlag` false it is accepted:
the empty identifier (renamed when some entry already holds the empty identifier) is
handed to `chrMap.insert`, the record counter is incremented modulo 256 and a record is
live afterwards. -/
theorem C11_blank_header_processed_as_header (sc : Scanner) (cpgTab cpgStartTab : List CpG)
    (genSeq : List Str) (chrMap : List (Nat × Str)) (pre : List Str) (c : Char) (rest : Str)
    (hc : c = ' ' ∨ c = '\t') :
    isHeaderLine ('>' :: c :: rest) = true
    ∧ candidateID ('>' :: c :: rest) = []
    ∧ (∀ (flag : Bool) (st : State),
        (step sc flag st ('>' :: c :: rest)).genSeq
          = (if st.contFlag then st.genSeq ++ [st.seq] else st.genSeq))
    ∧ ((step sc true (runLines sc true (initWith cpgTab cpgStartTab genSeq chrMap) pre)
          ('>' :: c :: rest)).chrMap
        = (runLines sc true (initWith cpgTab cpgStartTab genSeq chrMap) pre).chrMap
      ∧ (step sc true (runLines sc true (initWith cpgTab cpgStartTab genSeq chrMap) pre)
          ('>' :: c :: rest)).chrIndex
        = (runLines sc true (initWith cpgTab cpgStartTab genSeq chrMap) pre).chrIndex
      ∧ (step sc true (runLines sc true (initWith cpgTab cpgStartTab genSeq chrMap) pre)
          ('>' :: c :: rest)).trace
        = (runLines sc true (initWith cpgTab cpgStartTab genSeq chrMap) pre).trace
      ∧ (step sc true (runLines sc true (initWith cpgTab cpgStartTab genSeq chrMap) pre)
          ('>' :: c :: rest)).contFlag = false)
    ∧ ((step sc false (runLines sc false (initWith cpgTab cpgStartTab genSeq chrMap) pre)
          ('>' :: c :: rest)).chrMap
        = mapInsert (runLines sc false (initWith cpgTab cpgStartTab genSeq chrMap) pre).chrMap
            ((((runLines sc false (initWith cpgTab cpgStartTab genSeq chrMap) pre).chrIndex + 1)
              % 2 ^ 8 + 255) % 2 ^ 8)
            (resolve (runLines sc false (initWith cpgTab cpgStartTab genSeq chrMap) pre).chrMap []
              (runLines sc false (initWith cpgTab cpgStartTab genSeq chrMap) pre).unIDCount)
      ∧ (step sc false (runLines sc false (initWith cpgTab cpgStartTab genSeq chrMap) pre)
          ('>' :: c :: rest)).chrIndex
        = ((runLines sc false (initWith cpgTab cpgStartTab genSeq chrMap) pre).chrIndex + 1)
            % 2 ^ 8
      ∧ insertIDs (step sc false
          (runLines sc false (initWith cpgTab cpgStartTab genSeq chrMap) pre)
          ('>' :: c :: rest)).trace
        = insertIDs (runLines sc false (initWith cpgTab cpgStartTab genSeq chrMap) pre).trace
          ++ [resolve (runLines sc false (initWith cpgTab cpgStartTab genSeq chrMap) pre).chrMap
              [] (runLines sc false (initWith cpgTab cpgStartTab genSeq chrMap) pre).unIDCount]
      ∧ (step sc false (runLines sc false (initWith cpgTab cpgStartTab genSeq chrMap) pre)
          ('>' :: c :: rest)).contFlag = true) := by
  obtain ⟨h1, h2, h3, h4⟩ := blank_header c rest hc
  have hidx : (runLines sc true (initWith cpgTab cpgStartTab genSeq chrMap) pre).chrIndex
      < 2 ^ 8 :=
    runLines_chrIndex_lt sc true pre _ (by simp [initWith, init])
  obtain ⟨r1, r2, _, r4, r5, _⟩ := step_rejected_fields sc true _ ('>' :: c :: rest) h4 hidx
  obtain ⟨a1, a2, _, a4, a5, _⟩ := step_accepted_fields sc false
    (runLines sc false (initWith cpgTab cpgStartTab genSeq chrMap) pre) ('>' :: c :: rest) h3
  rw [h2] at a1 a5
  refine ⟨h1, h2, fun flag st => ?_, ⟨r1, r2, r5, r4⟩, ⟨a1, a2, a5, a4⟩⟩
  rw [step_genSeq, h1]
  simp

/-- C11 (amended) at a concrete input: `> description` after a live `chr1` record, flag off. -/
theorem C11_blank_header_processed_as_header_witness :
    ((' ' : Char) = ' ' ∨ (' ' : Char) = '\t')
    ∧ (step appendScanner false
        (runLines appendScanner false (initWith [] [] [] []) [">chr1".toList, "AC".toList])
        ('>' :: ' ' :: "description".toList)).contFlag = true
    ∧ (step appendScanner false
        (runLines appendScanner false (initWith [] [] [] []) [">chr1".toList, "AC".toList])
        ('>' :: ' ' :: "description".toList)).chrIndex = 2 :=
  ⟨Or.inl rfl,
    (C11_blank_header_processed_as_header appendScanner [] [] [] []
      [">chr1".toList, "AC".toList] ' ' "description".toList (Or.inl rfl)).2.2.2.2.2.2.2,
    (C11_blank_header_processed_as_header appendScanner [] [] [] []
      [">chr1".toList, "AC".toList] ' ' "description".toList (Or.inl rfl)).2.2.2.2.2.1.trans
      (by decide)⟩

/-! ## C12: an input without header lines -/

/-- C12: for the empty input, and for every input none of whose lines is a header line, a
parse from empty outputs ends in the entry state: `genSeq`, `cpgTab`, `cpgStartTab` and
`chrMap` are empty and the trace is empty, so the line scanner was never invoked and no
rename warning was printed. -/
theorem C12_no_header_no_output (sc : Scanner) (humanOptFlag : Bool) (lines : List Str)
    (hl : ∀ l ∈ lines, isHeaderLine l = false) :
    readReference sc humanOptFlag [] = init
    ∧ readReference sc humanOptFlag lines = init
    ∧ (readReference sc humanOptFlag lines).genSeq = []
    ∧ (readReference sc humanOptFlag lines).cpgTab = []
    ∧ (readReference sc humanOptFlag lines).cpgStartTab = []
    ∧ (readReference sc humanOptFlag lines).chrMap = []
    ∧ scans (readReference sc humanOptFlag lines).trace = []
    ∧ warnings (readReference sc humanOptFlag lines).trace = [] := by
  have h : readReference sc humanOptFlag lines = init := by
    rw [readReference, readReferenceFrom, runLines_dead_nonheader sc humanOptFlag lines hl init rfl]
    rfl
  refine ⟨rfl, h, ?_, ?_, ?_, ?_, ?_, ?_⟩ <;> rw [h] <;> rfl

/-- C12 at a concrete input: three lines, among them the empty line and the lone marker. -/
theorem C12_no_header_no_output_witness :
    (∀ l ∈ ["ACGT".toList, [], ">".toList], isHeaderLine l = false)
    ∧ readReference appendScanner true ["ACGT".toList, [], ">".toList] = init :=
  ⟨by decide,
    (C12_no_header_no_output appendScanner true ["ACGT".toList, [], ">".toList]
      (by decide)).2.1⟩

/-! ## The start of an accepted record -/

/-- At a state in which "no record live" implies a cleared carry flag and an empty buffer,
an accepted header starts its record with the carry flag cleared and the buffer empty, and
leaves both tables alone. -/
theorem step_accepted_fresh (sc : Scanner) (flag : Bool) (st : State) (line : Str)
    (ha : isAccepted flag line = true)
    (hdead : st.contFlag = false → st.lastC = false ∧ st.seq = []) :
    (step sc flag st line).lastC = false ∧ (step sc flag st line).seq = []
    ∧ (step sc flag st line).cpgTab = st.cpgTab
    ∧ (step sc flag st line).cpgStartTab = st.cpgStartTab
    ∧ (step sc flag st line).contFlag = true
    ∧ (step sc flag st line).chrIndex = (st.chrIndex + 1) % 2 ^ 8 := by
  rw [step_accepted sc flag st line ha]
  cases hcf : st.contFlag
  · obtain ⟨h1, h2⟩ := hdead hcf
    simp [flushOnHeader, hcf, h1, h2]
  · simp [flushOnHeader, hcf]

/-! ## C13: the motif across a line break, with the scanner of the specification -/

theorem inLineCpGs_shift (line : Str) (off : Nat) :
    inLineCpGs line off = (inLineCpGs line 0).map (fun o => o + off) := by
  induction line generalizing off with
  | nil => rfl
  | cons c rest ih =>
    cases rest with
    | nil => rfl
    | cons d tl =>
      rw [inLineCpGs, inLineCpGs, ih (off + 1), ih (0 + 1)]
      split
      · simp [List.map_map, Function.comp_def]; intro a _; omega
      · simp [List.map_map, Function.comp_def]; intro a _; omega

theorem step_nonheader_live_fields (sc : Scanner) (flag : Bool) (st : State) (line : Str)
    (hh : isHeaderLine line = false) (hc : st.contFlag = true) :
    (step sc flag st line).lastC
        = (sc line st.lastC st.chrIndex st.cpgTab st.cpgStartTab st.seq).lastC
    ∧ (step sc flag st line).cpgTab
        = (sc line st.lastC st.chrIndex st.cpgTab st.cpgStartTab st.seq).cpgTab
    ∧ (step sc flag st line).cpgStartTab
        = (sc line st.lastC st.chrIndex st.cpgTab st.cpgStartTab st.seq).cpgStartTab
    ∧ (step sc flag st line).seq
        = (sc line st.lastC st.chrIndex st.cpgTab st.cpgStartTab st.seq).seq
    ∧ (step sc flag st line).trace = st.trace ++ [Event.scan line st.lastC st.chrIndex]
    ∧ (step sc flag st line).contFlag = true
    ∧ (step sc flag st line).chrIndex = st.chrIndex := by
  rw [step_nonheader_live sc flag st line hh hc]
  exact ⟨rfl, rfl, rfl, rfl, rfl, hc, rfl⟩

/-- Two non-header lines scanned by `readLineSpec` at the start of a record: the entries
added to the two tables. -/
theorem readLineSpec_two_lines (flag : Bool) (s : State) (l1 l2 : Str)
    (h1 : isHeaderLine l1 = false) (h2 : isHeaderLine l2 = false)
    (hc : s.contFlag = true) (hl : s.lastC = false) (hs : s.seq = []) :
    (runLines readLineSpec flag s [l1, l2]).cpgTab
      = s.cpgTab
        ++ (inLineCpGs l1 0).map (fun o => ⟨(s.chrIndex + 255) % 2 ^ 8, o⟩)
        ++ (if (l1.getLast?.map isC).getD false && (l2.head?.map isG).getD false then
              [⟨(s.chrIndex + 255) % 2 ^ 8, l1.length - 1⟩] else [])
        ++ (inLineCpGs l2 l1.length).map (fun o => ⟨(s.chrIndex + 255) % 2 ^ 8, o⟩)
    ∧ (runLines readLineSpec flag s [l1, l2]).cpgStartTab
      = s.cpgStartTab
        ++ (if (l1.getLast?.map isC).getD false && (l2.head?.map isG).getD false then
              [⟨(s.chrIndex + 255) % 2 ^ 8, l1.length - 1⟩] else []) := by
  rw [runLines_cons, runLines_cons, runLines_nil]
  obtain ⟨a1, a2, a3, a4, _, a6, a7⟩ := step_nonheader_live_fields readLineSpec flag s l1 h1 hc
  obtain ⟨_, b2, b3, _, _, _, _⟩ :=
    step_nonheader_live_fields readLineSpec flag (step readLineSpec flag s l1) l2 h2 a6
  rw [b2, b3, a1, a2, a3, a4, a7, hl, hs]
  simp [readLineSpec]
theorem inLineCpGs_eq_of_zero (line : Str) (off : Nat) (os : List Nat)
    (h : inLineCpGs line 0 = os) : inLineCpGs line off = os.map (fun o => o + off) := by
  rw [inLineCpGs_shift, h]

/-- C13, against the scanner modelled from the specification: for an accepted record met at
any point of a parse whose first two lines are `l1` and `l2`, where neither line holds the
motif inside itself apart from what is named: if `l1` ends in `AC` and `l2` begins with `G`,
the two lines add exactly one entry to `cpgTab` and exactly one to `cpgStartTab`, both at
offset `length l1 - 1` with the record's key; if `l1` ends in `AT` and `l2` begins with `CG`,
they add exactly one entry to `cpgTab`, at offset `length l1`, and none to `cpgStartTab`. -/
theorem C13_motif_across_line_break (humanOptFlag : Bool) (cpgTab cpgStartTab : List CpG)
    (genSeq : List Str) (chrMap : List (Nat × Str)) (pre : List Str) (hdr l1 l2 p q : Str)
    (ha : isAccepted humanOptFlag hdr = true) (h1 : isHeaderLine l1 = false) :
    (l1 = p ++ ['A', 'C'] → l2 = 'G' :: q → inLineCpGs l1 0 = [] → inLineCpGs l2 0 = [] →
      (runLines readLineSpec humanOptFlag (initWith cpgTab cpgStartTab genSeq chrMap)
          (pre ++ [hdr, l1, l2])).cpgTab
        = (runLines readLineSpec humanOptFlag (initWith cpgTab cpgStartTab genSeq chrMap)
            pre).cpgTab ++ [⟨acceptedCount humanOptFlag pre % 2 ^ 8, l1.length - 1⟩]
      ∧ (runLines readLineSpec humanOptFlag (initWith cpgTab cpgStartTab genSeq chrMap)
          (pre ++ [hdr, l1, l2])).cpgStartTab
        = (runLines readLineSpec humanOptFlag (initWith cpgTab cpgStartTab genSeq chrMap)
            pre).cpgStartTab ++ [⟨acceptedCount humanOptFlag pre % 2 ^ 8, l1.length - 1⟩])
    ∧ (l1 = p ++ ['A', 'T'] → l2 = 'C' :: 'G' :: q → inLineCpGs l1 0 = [] →
        inLineCpGs l2 0 = [0] →
      (runLines readLineSpec humanOptFlag (initWith cpgTab cpgStartTab genSeq chrMap)
          (pre ++ [hdr, l1, l2])).cpgTab
        = (runLines readLineSpec humanOptFlag (initWith cpgTab cpgStartTab genSeq chrMap)
            pre).cpgTab ++ [⟨acceptedCount humanOptFlag pre % 2 ^ 8, l1.length⟩]
      ∧ (runLines readLineSpec humanOptFlag (initWith cpgTab cpgStartTab genSeq chrMap)
          (pre ++ [hdr, l1, l2])).cpgStartTab
        = (runLines readLineSpec humanOptFlag (initWith cpgTab cpgStartTab genSeq chrMap)
            pre).cpgStartTab) := by
  have hinv := Inv_runLines_initWith readLineSpec humanOptFlag cpgTab cpgStartTab genSeq chrMap pre
  have hsplit : pre ++ [hdr, l1, l2] = pre ++ [hdr] ++ [l1, l2] := by simp
  rw [hsplit, runLines_append, runLines_append]
  generalize runLines readLineSpec humanOptFlag (initWith cpgTab cpgStartTab genSeq chrMap) pre
    = s0 at hinv ⊢
  have e0 : runLines readLineSpec humanOptFlag s0 [hdr] = step readLineSpec humanOptFlag s0 hdr :=
    rfl
  rw [e0]
  obtain ⟨f1, f2, f3, f4, f5, f6⟩ :=
    step_accepted_fresh readLineSpec humanOptFlag s0 hdr ha hinv.dead
  have hrec : ((step readLineSpec humanOptFlag s0 hdr).chrIndex + 255) % 2 ^ 8
      = acceptedCount humanOptFlag pre % 2 ^ 8 := by
    rw [f6, hinv.idx]; omega
  constructor
  · intro e1 e2 i1 i2
    have h2 : isHeaderLine l2 = false := by rw [e2]; rfl
    obtain ⟨t1, t2⟩ := readLineSpec_two_lines humanOptFlag _ l1 l2 h1 h2 f5 f1 f2
    rw [t1, t2, f3, f4, hrec, inLineCpGs_eq_of_zero l2 _ [] i2, i1, e1, e2]
    simp [isC, isG]
  · intro e1 e2 i1 i2
    have h2 : isHeaderLine l2 = false := by rw [e2]; rfl
    obtain ⟨t1, t2⟩ := readLineSpec_two_lines humanOptFlag _ l1 l2 h1 h2 f5 f1 f2
    rw [t1, t2, f3, f4, hrec, inLineCpGs_eq_of_zero l2 _ [0] i2, i1, e1, e2]
    simp [isC, isG]

/-- C13 at a concrete input: the records `TTAC` / `GTT` and `TTAT` / `CGTT`, each alone in a
file parsed from empty outputs. -/
theorem C13_motif_across_line_break_witness :
    (readReference readLineSpec true [">chr1".toList, "TTAC".toList, "GTT".toList]).cpgTab
      = [⟨0, 3⟩]
    ∧ (readReference readLineSpec true [">chr1".toList, "TTAC".toList, "GTT".toList]).cpgStartTab
      = [⟨0, 3⟩]
    ∧ (runLines readLineSpec true (initWith [] [] [] [])
        ([] ++ [">chr1".toList, "TTAT".toList, "CGTT".toList])).cpgTab
      = (runLines readLineSpec true (initWith [] [] [] []) []).cpgTab
          ++ [⟨acceptedCount true [] % 2 ^ 8, "TTAT".toList.length⟩]
    ∧ (runLines readLineSpec true (initWith [] [] [] [])
        ([] ++ [">chr1".toList, "TTAC".toList, "GTT".toList])).cpgStartTab
      = (runLines readLineSpec true (initWith [] [] [] []) []).cpgStartTab
          ++ [⟨acceptedCount true [] % 2 ^ 8, "TTAC".toList.length - 1⟩] :=
  ⟨by decide, by decide,
    ((C13_motif_across_line_break true [] [] [] [] [] ">chr1".toList "TTAT".toList
      "CGTT".toList "TT".toList "TT".toList (by decide) (by decide)).2 (by decide) (by decide)
      (by decide) (by decide)).1,
    ((C13_motif_across_line_break true [] [] [] [] [] ">chr1".toList "TTAC".toList
      "GTT".toList "TT".toList "TT".toList (by decide) (by decide)).1 (by decide) (by decide)
      (by decide) (by decide)).2⟩

/-! ## C14: the carry flag -/

theorem step_header_scans (sc : Scanner) (flag : Bool) (st : State) (line : Str)
    (hh : isHeaderLine line = true) : scans (step sc flag st line).trace = scans st.trace := by
  rcases header_cases flag line with ⟨hn, _, _⟩ | ⟨_, ha, _⟩ | ⟨_, _, hr⟩
  · rw [hn] at hh; exact absurd hh (by decide)
  · rw [step_accepted sc flag st line ha]
    simp [scans_append, scans, (flushOnHeader_frame st).2.2.2.1,
      (uniquify_trace (chrHeaderOf line) (flushOnHeader st).chrMap (candidateID line)
        (flushOnHeader st).unIDCount).2.2.1]
  · rw [step_rejected sc flag st line hr]
    simp [(flushOnHeader_frame st).2.2.2.1]

/-- C14: for every scanner and every input, parsed from any containers: after every line,
"no record live" implies that the carry flag is false and the live buffer is empty; the
first sequence line after an accepted header is handed to the scanner with carry flag
false (whatever came before, rejected records included); and of two consecutive sequence
lines of a live record the second is handed to the scanner with exactly the carry flag the
scanner returned for the first. -/
theorem C14_carry_flag_per_record (sc : Scanner) (humanOptFlag : Bool)
    (cpgTab cpgStartTab : List CpG) (genSeq : List Str) (chrMap : List (Nat × Str))
    (pre : List Str) (hdr l l' : Str) (ha : isAccepted humanOptFlag hdr = true)
    (hl : isHeaderLine l = false) (hl' : isHeaderLine l' = false) :
    ((runLines sc humanOptFlag (initWith cpgTab cpgStartTab genSeq chrMap) pre).contFlag = false →
      (runLines sc humanOptFlag (initWith cpgTab cpgStartTab genSeq chrMap) pre).lastC = false
      ∧ (runLines sc humanOptFlag (initWith cpgTab cpgStartTab genSeq chrMap) pre).seq = [])
    ∧ (runLines sc humanOptFlag (initWith cpgTab cpgStartTab genSeq chrMap)
        (pre ++ [hdr])).lastC = false
    ∧ scans (runLines sc humanOptFlag (initWith cpgTab cpgStartTab genSeq chrMap)
        (pre ++ [hdr, l])).trace
      = scans (runLines sc humanOptFlag (initWith cpgTab cpgStartTab genSeq chrMap) pre).trace
        ++ [(l, false,
            (runLines sc humanOptFlag (initWith cpgTab cpgStartTab genSeq chrMap)
              (pre ++ [hdr])).chrIndex)]
    ∧ ((runLines sc humanOptFlag (initWith cpgTab cpgStartTab genSeq chrMap) pre).contFlag = true →
      scans (runLines sc humanOptFlag (initWith cpgTab cpgStartTab genSeq chrMap)
          (pre ++ [l, l'])).trace
        = scans (runLines sc humanOptFlag (initWith cpgTab cpgStartTab genSeq chrMap) pre).trace
          ++ [(l, (runLines sc humanOptFlag (initWith cpgTab cpgStartTab genSeq chrMap) pre).lastC,
                (runLines sc humanOptFlag (initWith cpgTab cpgStartTab genSeq chrMap)
                  pre).chrIndex),
              (l', (sc l
                  (runLines sc humanOptFlag (initWith cpgTab cpgStartTab genSeq chrMap) pre).lastC
                  (runLines sc humanOptFlag (initWith cpgTab cpgStartTab genSeq chrMap)
                    pre).chrIndex
                  (runLines sc humanOptFlag (initWith cpgTab cpgStartTab genSeq chrMap) pre).cpgTab
                  (runLines sc humanOptFlag (initWith cpgTab cpgStartTab genSeq chrMap)
                    pre).cpgStartTab
                  (runLines sc humanOptFlag (initWith cpgTab cpgStartTab genSeq chrMap)
                    pre).seq).lastC,
                (runLines sc humanOptFlag (initWith cpgTab cpgStartTab genSeq chrMap)
                  pre).chrIndex)]) := by
  have hinv := Inv_runLines_initWith sc humanOptFlag cpgTab cpgStartTab genSeq chrMap pre
  have e1 : pre ++ [hdr, l] = pre ++ [hdr] ++ [l] := by simp
  rw [e1, runLines_append, runLines_append, runLines_append, runLines_append]
  generalize runLines sc humanOptFlag (initWith cpgTab cpgStartTab genSeq chrMap) pre = s0
    at hinv ⊢
  have e2 : runLines sc humanOptFlag s0 [hdr] = step sc humanOptFlag s0 hdr := rfl
  have e3 : ∀ s : State, runLines sc humanOptFlag s [l] = step sc humanOptFlag s l :=
    fun _ => rfl
  have e4 : runLines sc humanOptFlag s0 [l, l']
      = step sc humanOptFlag (step sc humanOptFlag s0 l) l' := rfl
  rw [e2, e3, e4]
  obtain ⟨f1, _, _, _, f5, _⟩ := step_accepted_fresh sc humanOptFlag s0 hdr ha hinv.dead
  have hh : isHeaderLine hdr = true := by
    simp only [isAccepted, Bool.and_eq_true] at ha; exact ha.1
  refine ⟨hinv.dead, f1, ?_, fun hc => ?_⟩
  · rw [(step_nonheader_live_fields sc humanOptFlag _ l hl f5).2.2.2.2.1, scans_append, f1,
      step_header_scans sc humanOptFlag s0 hdr hh]
    rfl
  · obtain ⟨a1, _, _, _, a5, a6, a7⟩ := step_nonheader_live_fields sc humanOptFlag s0 l hl hc
    rw [(step_nonheader_live_fields sc humanOptFlag _ l' hl' a6).2.2.2.2.1, a5, a1, a7,
      scans_append, scans_append]
    simp [scans]

/-- C14 at a concrete input: an accepted record after a rejected one whose last line ends in
`C`; the first line of the accepted record is scanned with carry flag false. -/
theorem C14_carry_flag_per_record_witness :
    isAccepted true ">chr2".toList = true
    ∧ scans (runLines readLineSpec true (initWith [] [] [] [])
        ([">chr1".toList, "AC".toList, ">chrUn".toList, "TC".toList]
          ++ [">chr2".toList, "GT".toList])).trace
      = [("AC".toList, false, 1), ("GT".toList, false, 2)] :=
  ⟨by decide,
    ((C14_carry_flag_per_record readLineSpec true [] [] [] []
      [">chr1".toList, "AC".toList, ">chrUn".toList, "TC".toList] ">chr2".toList "GT".toList
      "GT".toList (by decide) (by decide) (by decide)).2.2.1).trans (by decide)⟩

/-! ## C15: the whitelist test sees the candidate only -/

theorem isHeaderLine_iff (line : Str) :
    isHeaderLine line = true ↔ line ≠ [] ∧ line.head? = some '>' ∧ 1 < line.length := by
  cases line with
  | nil => simp [isHeaderLine]
  | cons c rest =>
    cases rest with
    | nil => simp [isHeaderLine]
    | cons d tl => simp [isHeaderLine]

theorem step_header_scanner_free (sc sc' : Scanner) (flag : Bool) (st : State) (line : Str)
    (hh : isHeaderLine line = true) : step sc flag st line = step sc' flag st line := by
  rcases header_cases flag line with ⟨hn, _, _⟩ | ⟨_, ha, _⟩ | ⟨_, _, hr⟩
  · rw [hn] at hh; exact absurd hh (by decide)
  · rw [step_accepted sc flag st line ha, step_accepted sc' flag st line ha]
  · rw [step_rejected sc flag st line hr, step_rejected sc' flag st line hr]

/-- C16: the header test holds of a line exactly when the line is non-empty, its first
character is `>` and it has more than one character. A line of which it holds is processed
without the scanner, and afterwards a record is live exactly if the header was accepted. A
line of which it does not hold (the empty line, the lone `>`, any line that does not start
with `>`) leaves `chrMap`, `chrIndex`, `genSeq` and the live flag unchanged, in every
state. -/
theorem C16_header_test (sc : Scanner) (humanOptFlag : Bool) (st : State) (line : Str) :
    (isHeaderLine line = true ↔ line ≠ [] ∧ line.head? = some '>' ∧ 1 < line.length)
    ∧ (isHeaderLine line = true →
        (∀ sc' : Scanner, step sc humanOptFlag st line = step sc' humanOptFlag st line)
        ∧ (step sc humanOptFlag st line).contFlag = isAccepted humanOptFlag line
        ∧ scans (step sc humanOptFlag st line).trace = scans st.trace)
    ∧ (isHeaderLine line = false →
        (step sc humanOptFlag st line).chrMap = st.chrMap
        ∧ (step sc humanOptFlag st line).chrIndex = st.chrIndex
        ∧ (step sc humanOptFlag st line).genSeq = st.genSeq
        ∧ (step sc humanOptFlag st line).contFlag = st.contFlag
        ∧ insertIDs (step sc humanOptFlag st line).trace = insertIDs st.trace)
    ∧ isHeaderLine [] = false ∧ isHeaderLine ['>'] = false
    ∧ (∀ (c : Char) (rest : Str), c ≠ '>' → isHeaderLine (c :: rest) = false) := by
  refine ⟨isHeaderLine_iff line, fun hh => ⟨fun sc' => step_header_scanner_free sc sc' _ st line hh,
    ?_, step_header_scans sc humanOptFlag st line hh⟩, fun hn => ?_, rfl, rfl, fun c rest hc => ?_⟩
  · rw [step_contFlag, hh]; rfl
  · obtain ⟨a1, a2, _, a4, a5, a6, _⟩ := step_nonheader_frame sc humanOptFlag st line hn
    exact ⟨a1, a2, a5, a4, a6⟩
  · simp [isHeaderLine, hc]

/-- C16 at concrete inputs: the empty line while a record is live, and the header `>x`. -/
theorem C16_header_test_witness :
    isHeaderLine ([] : Str) = false
    ∧ (step appendScanner false
        (runLines appendScanner false init [">chr1".toList, "AC".toList]) []).contFlag = true
    ∧ isHeaderLine ">x".toList = true
    ∧ (step appendScanner true
        (runLines appendScanner true init [">chr1".toList, "AC".toList]) ">x".toList).contFlag
      = false :=
  ⟨by decide,
    ((C16_header_test appendScanner false
      (runLines appendScanner false init [">chr1".toList, "AC".toList]) []).2.2.1
      (by decide)).2.2.2.1.trans (by decide),
    by decide,
    ((C16_header_test appendScanner true
      (runLines appendScanner true init [">chr1".toList, "AC".toList]) ">x".toList).2.1
      (by decide)).2.1.trans (by decide)⟩

/-! ## C17: keys and buffers up to 256 records -/

theorem genSeq_grows (sc : Scanner) (flag : Bool) (lines : List Str) (st : State) :
    st.genSeq <+: (readReferenceFrom sc flag st lines).genSeq := by
  induction lines generalizing st with
  | nil =>
    rw [readReferenceFrom, runLines_nil, finish]
    split
    · exact List.prefix_append _ _
    · exact List.prefix_refl _
  | cons l ls ih =>
    have hstep : st.genSeq <+: (step sc flag st l).genSeq := by
      rw [step_genSeq]
      split
      · exact List.prefix_append _ _
      · exact List.prefix_refl _
    exact hstep.trans (ih (step sc flag st l))

theorem acceptedCount_nonheader (flag : Bool) (body : List Str)
    (hb : ∀ l ∈ body, isHeaderLine l = false) : acceptedCount flag body = 0 := by
  rw [acceptedCount, List.countP_eq_zero]
  intro l hl
  simp [isAccepted, hb l hl]

/-- The buffer of a record: when the record that starts at the accepted header `line` has the
non-header lines `body` and is followed by a header line or by the end of the input, the
entry of `genSeq` whose index is the number of headers accepted before `line` is the live
buffer as it stands after `body`. -/
theorem genSeq_at_record (sc : Scanner) (flag : Bool) (t1 t2 : List CpG)
    (m : List (Nat × Str)) (pre : List Str) (line : Str) (body rest : List Str)
    (ha : isAccepted flag line = true) (hb : ∀ l ∈ body, isHeaderLine l = false)
    (hr : rest = [] ∨ ∃ h t, rest = h :: t ∧ isHeaderLine h = true) :
    (readReferenceFrom sc flag (initWith t1 t2 [] m) (pre ++ line :: body ++ rest)).genSeq[
        acceptedCount flag pre]?
      = some (runLines sc flag (initWith t1 t2 [] m) (pre ++ line :: body)).seq := by
  have hinv := Inv_runLines_initWith sc flag t1 t2 [] m (pre ++ line :: body)
  have hcount : acceptedCount flag (pre ++ line :: body) = acceptedCount flag pre + 1 := by
    rw [acceptedCount_append, acceptedCount_cons, acceptedCount_nonheader flag body hb]
    simp [ha]
  have hlive : (runLines sc flag (initWith t1 t2 [] m) (pre ++ line :: body)).contFlag = true := by
    rw [runLines_append, runLines_cons,
      (runLines_nonheader_frame sc flag body hb _).2.2.2.1]
    exact (step_accepted_fields sc flag _ line ha).2.2.2.1
  have hgen := hinv.gen
  rw [hcount, hlive] at hgen
  simp only [if_true, List.length_nil, Nat.zero_add] at hgen
  have hsplit : readReferenceFrom sc flag (initWith t1 t2 [] m) (pre ++ line :: body ++ rest)
      = readReferenceFrom sc flag (runLines sc flag (initWith t1 t2 [] m) (pre ++ line :: body))
          rest := by
    rw [readReferenceFrom, readReferenceFrom, ← runLines_append]
  rw [hsplit]
  generalize runLines sc flag (initWith t1 t2 [] m) (pre ++ line :: body) = s at hlive hgen ⊢
  have hlen : s.genSeq.length = acceptedCount flag pre := by omega
  rcases hr with rfl | ⟨h, t, rfl, hh⟩
  · rw [readReferenceFrom, runLines_nil, finish, hlive]
    simp [← hlen]
  · have e : readReferenceFrom sc flag s (h :: t)
        = readReferenceFrom sc flag (step sc flag s h) t := rfl
    rw [e]
    obtain ⟨u, hu⟩ := genSeq_grows sc flag t (step sc flag s h)
    rw [← hu, step_genSeq, hh, hlive, ← hlen]
    simp only [Bool.and_self, if_true]
    rw [List.append_assoc, List.getElem?_append_right (Nat.le_refl _)]
    simp

/-- C17: in a parse from empty outputs with at most 256 accepted header lines, the keys
handed to `insert` are `0, 1, .., N-1` in this order, so no two records share a key; the
keys of the final `chrMap` are exactly `0..N-1`; `chrMap` has as many entries as `genSeq`;
and for every accepted header line, with `i` the number of headers accepted before it, key
`i` holds the identifier resolved at that header and `genSeq[i]` is the buffer of that
record. The 256th accepted header leaves `chrIndex` at 0 and is registered under key 255. -/
theorem C17_keys_and_buffers_upto_256 (sc : Scanner) (humanOptFlag : Bool) (lines : List Str)
    (hN : acceptedCount humanOptFlag lines ≤ 256) :
    insertKeys (readReference sc humanOptFlag lines).trace
      = List.range (acceptedCount humanOptFlag lines)
    ∧ (insertKeys (readReference sc humanOptFlag lines).trace).Nodup
    ∧ (readReference sc humanOptFlag lines).chrMap.map Prod.fst
      = List.range (acceptedCount humanOptFlag lines)
    ∧ (readReference sc humanOptFlag lines).chrMap.length
      = (readReference sc humanOptFlag lines).genSeq.length
    ∧ (∀ (pre : List Str) (line : Str) (body rest : List Str),
        lines = pre ++ line :: body ++ rest → isAccepted humanOptFlag line = true →
        (∀ l ∈ body, isHeaderLine l = false) →
        (rest = [] ∨ ∃ h t, rest = h :: t ∧ isHeaderLine h = true) →
        mapFind (readReference sc humanOptFlag lines).chrMap (acceptedCount humanOptFlag pre)
          = some (uniquify (chrHeaderOf line) (runLines sc humanOptFlag init pre).chrMap
              (candidateID line) (runLines sc humanOptFlag init pre).unIDCount).1
        ∧ (readReference sc humanOptFlag lines).genSeq[acceptedCount humanOptFlag pre]?
          = some (runLines sc humanOptFlag init (pre ++ line :: body)).seq
        ∧ (acceptedCount humanOptFlag pre = 255 →
            (runLines sc humanOptFlag init (pre ++ [line])).chrIndex = 0)) := by
  have hinv := Inv_runLines sc humanOptFlag lines
  have hlen := hinv.ids_len
  have hmap := hinv.map rfl
  rw [List.take_of_length_le (by omega)] at hmap
  have hkeys : insertKeys (readReference sc humanOptFlag lines).trace
      = List.range (acceptedCount humanOptFlag lines) := by
    rw [readReference, readReferenceFrom, (finish_frame _).2.1, hinv.keys]
    conv_rhs => rw [← List.map_id (List.range (acceptedCount humanOptFlag lines))]
    apply List.map_congr_left
    intro i hi
    rw [List.mem_range] at hi
    exact Nat.mod_eq_of_lt (by omega)
  have hgenlen : (readReference sc humanOptFlag lines).genSeq.length
      = acceptedCount humanOptFlag lines := by
    have hgen := hinv.gen
    rw [readReference, readReferenceFrom, finish]
    generalize runLines sc humanOptFlag init lines = s at hgen ⊢
    cases hcf : s.contFlag
    · simpa [hcf] using hgen
    · simpa [hcf] using hgen
  have hmapfin : (readReference sc humanOptFlag lines).chrMap
      = (insertIDs (runLines sc humanOptFlag init lines).trace).enum := by
    rw [readReference, readReferenceFrom, (finish_frame _).1, hmap]
  refine ⟨hkeys, by rw [hkeys]; exact List.nodup_range _,
    by rw [hmapfin, List.enum_map_fst, hlen],
    by rw [hgenlen, hmapfin, List.enum_length, hlen], ?_⟩
  intro pre line body rest hsplit ha hb hr
  have hpre := Inv_runLines sc humanOptFlag pre
  refine ⟨?_, ?_, fun h255 => ?_⟩
  · have hgrow := insertIDs_grows sc humanOptFlag (body ++ rest)
      (step sc humanOptFlag (runLines sc humanOptFlag init pre) line)
    rw [← runLines_cons, ← runLines_append] at hgrow
    have hl : pre ++ line :: (body ++ rest) = lines := by rw [hsplit]; simp
    rw [hl, (step_accepted_fields sc humanOptFlag _ line ha).2.2.2.2.1] at hgrow
    obtain ⟨t, ht⟩ := hgrow
    rw [hmapfin, mapFind_enum, ← ht, uniquify_fst, List.append_assoc,
      List.getElem?_append_right (by rw [hpre.ids_len]), hpre.ids_len]
    simp
  · rw [hsplit]
    exact genSeq_at_record sc humanOptFlag [] [] [] pre line body rest ha hb hr
  · have h1 := (Inv_step sc humanOptFlag _ _ _ _ line hpre).idx
    rw [runLines_append, runLines_cons, runLines_nil, h1]
    simp [ha, h255]

/-- C17 at a concrete input: two records; key 1 and buffer 1 belong to the second. -/
theorem C17_keys_and_buffers_upto_256_witness :
    acceptedCount false [">a".toList, "AC".toList, ">b x".toList, "GG".toList, "T".toList] ≤ 256
    ∧ (readReference appendScanner false
        [">a".toList, "AC".toList, ">b x".toList, "GG".toList, "T".toList]).genSeq[
          acceptedCount false [">a".toList, "AC".toList]]?
      = some "GGT".toList
    ∧ insertKeys (readReference appendScanner false
        [">a".toList, "AC".toList, ">b x".toList, "GG".toList, "T".toList]).trace
      = List.range 2 :=
  ⟨by decide,
    (((C17_keys_and_buffers_upto_256 appendScanner false
      [">a".toList, "AC".toList, ">b x".toList, "GG".toList, "T".toList] (by decide)).2.2.2.2
      [">a".toList, "AC".toList] ">b x".toList ["GG".toList, "T".toList] [] (by decide)
      (by decide) (by decide) (Or.inl rfl)).2.1).trans (by decide),
    (C17_keys_and_buffers_upto_256 appendScanner false
      [">a".toList, "AC".toList, ">b x".toList, "GG".toList, "T".toList] (by decide)).1.trans
      (by decide)⟩

/-! ## C18: what the whitelisted parse registers -/

theorem mapValues_mapInsert (m : List (Nat × Str)) (key : Nat) (r v : Str)
    (hv : v ∈ mapValues (mapInsert m key r)) :
    v ∈ mapValues m ∨ (m.any (fun p => p.1 == key) = false ∧ v = r) := by
  unfold mapInsert at hv
  cases hany : m.any (fun p => p.1 == key)
  · rw [hany] at hv
    simp only [Bool.false_eq_true, if_false, mapValues, List.map_append, List.map_cons,
      List.map_nil, List.mem_append, List.mem_singleton] at hv
    rcases hv with h | h
    · exact Or.inl h
    · exact Or.inr ⟨rfl, h⟩
  · rw [hany] at hv
    exact Or.inl (by simpa using hv)

/-- Every identifier stored in `chrMap` by a parse from an empty `chrMap` stems from an
accepted header line of the input: it is that line's candidate, or the candidate followed
by `_` and the decimal numeral of a positive integer. -/
theorem chrMap_values_origin (sc : Scanner) (flag : Bool) (t1 t2 : List CpG) (g : List Str)
    (lines : List Str) :
    ∀ v ∈ mapValues (runLines sc flag (initWith t1 t2 g []) lines).chrMap,
      ∃ l ∈ lines, isAccepted flag l = true
        ∧ (v = candidateID l ∨ ∃ k, 0 < k ∧ v = candidateID l ++ ['_'] ++ to_string k) := by
  induction lines using List.reverseRecOn with
  | nil => intro v hv; simp [runLines, initWith, mapValues] at hv
  | append_singleton pre l ih =>
    intro v hv
    have lift : (∃ l' ∈ pre, isAccepted flag l' = true
        ∧ (v = candidateID l' ∨ ∃ k, 0 < k ∧ v = candidateID l' ++ ['_'] ++ to_string k)) →
        ∃ l' ∈ pre ++ [l], isAccepted flag l' = true
        ∧ (v = candidateID l' ∨ ∃ k, 0 < k ∧ v = candidateID l' ++ ['_'] ++ to_string k) :=
      fun ⟨l', hl', h⟩ => ⟨l', List.mem_append_left _ hl', h⟩
    have hinv := Inv_runLines_initWith sc flag t1 t2 g [] pre
    have hw := warnings_length_le sc flag pre (initWith t1 t2 g [])
    have hw0 : (warnings (initWith t1 t2 g []).trace).length = 0 := rfl
    rw [runLines_append, runLines_cons, runLines_nil] at hv
    generalize runLines sc flag (initWith t1 t2 g []) pre = st at hinv hw hv ih
    rcases header_cases flag l with ⟨hh, _, _⟩ | ⟨_, ha, _⟩ | ⟨_, _, hr⟩
    · rw [(step_nonheader_frame sc flag st l hh).1] at hv
      exact lift (ih v hv)
    · rw [(step_accepted_fields sc flag st l ha).1] at hv
      rcases mapValues_mapInsert _ _ _ _ hv with h | ⟨habs, hres⟩
      · exact lift (ih v h)
      · refine ⟨l, by simp, ha, ?_⟩
        have hlt : acceptedCount flag pre < 256 := by
          rw [hinv.map rfl, enum_any_key, hinv.idx] at habs
          simp only [decide_eq_false_iff_not, List.length_take, hinv.ids_len, not_lt] at habs
          omega
        have hcnt : 0 < st.unIDCount := by
          rw [hinv.cnt, Nat.mod_eq_of_lt (by omega)]; omega
        rw [hres, resolve]
        split
        · exact Or.inr ⟨_, hcnt, rfl⟩
        · exact Or.inl rfl
    · rw [step_rejected sc flag st l hr] at hv
      simp only [(flushOnHeader_frame st).1] at hv
      exact lift (ih v hv)

/-- C18: with `humanOptFlag` true and `chrMap` empty on entry, every identifier stored in the
final `chrMap` stems from a header line of the input whose candidate is whitelisted: it is
that candidate, or that candidate followed by `_` and the decimal numeral of a positive
integer. In particular it is a whitelisted name or a whitelisted name with such a suffix,
and no identifier derived from a non-whitelisted candidate is stored. -/
theorem C18_registered_identifiers_whitelisted (sc : Scanner) (cpgTab cpgStartTab : List CpG)
    (genSeq : List Str) (lines : List Str) (chrID : Str)
    (hv : chrID
      ∈ mapValues (readReferenceFrom sc true (initWith cpgTab cpgStartTab genSeq []) lines).chrMap) :
    WhitelistDerived chrID
    ∧ ∃ l ∈ lines, isHeaderLine l = true ∧ isPrimaryHG (candidateID l) = true
        ∧ (chrID = candidateID l
          ∨ ∃ k, 0 < k ∧ chrID = candidateID l ++ ['_'] ++ to_string k) := by
  rw [readReferenceFrom, (finish_frame _).1] at hv
  obtain ⟨l, hl, ha, h⟩ := chrMap_values_origin sc true cpgTab cpgStartTab genSeq lines chrID hv
  have hacc : isHeaderLine l = true ∧ isPrimaryHG (candidateID l) = true := by
    simpa [isAccepted] using ha
  refine ⟨?_, l, hl, hacc.1, hacc.2, h⟩
  rcases h with h | ⟨k, hk, h⟩
  · exact Or.inl (h ▸ hacc.2)
  · exact Or.inr ⟨candidateID l, k, hacc.2, hk, h⟩

/-- C18 at a concrete input: the renamed identifier `chrX_1`. -/
theorem C18_registered_identifiers_whitelisted_witness :
    "chrX_1".toList
      ∈ mapValues (readReferenceFrom appendScanner true (initWith [] [] [] [])
          [">chrX".toList, ">decoy".toList, ">chrX 2".toList]).chrMap
    ∧ WhitelistDerived "chrX_1".toList :=
  ⟨by decide,
    (C18_registered_identifiers_whitelisted appendScanner [] [] []
      [">chrX".toList, ">decoy".toList, ">chrX 2".toList] "chrX_1".toList (by decide)).1⟩

/-! ## C19: the record number handed to the scanner -/

theorem live_accepted_pos (sc : Scanner) (flag : Bool) (t1 t2 : List CpG) (g : List Str)
    (m : List (Nat × Str)) (lines : List Str)
    (hc : (runLines sc flag (initWith t1 t2 g m) lines).contFlag = true) :
    0 < acceptedCount flag lines := by
  induction lines using List.reverseRecOn with
  | nil => simp [runLines, initWith, init] at hc
  | append_singleton pre l ih =>
    rw [runLines_append, runLines_cons, runLines_nil, step_contFlag] at hc
    rw [acceptedCount_append, acceptedCount_cons]
    cases hh : isHeaderLine l
    · rw [hh] at hc
      have := ih (by simpa using hc)
      omega
    · rw [hh] at hc
      simp only [if_true] at hc
      rw [hc]
      simp

/-- C19: at every invocation of the line scanner (a non-header line met while a record is
live, at any point of a parse from any containers) the record number passed is the number
of header lines accepted so far, modulo 256, and at least one header has been accepted; the
key computed for the live record's header, the last key handed to `insert`, is that number
minus one modulo 256, so the record number is the key plus one modulo 256. A rejected
header leaves `chrIndex` as it was. -/
theorem C19_record_number_passed_to_scanner (sc : Scanner) (humanOptFlag : Bool)
    (cpgTab cpgStartTab : List CpG) (genSeq : List Str) (chrMap : List (Nat × Str))
    (pre : List Str) (l : Str) (hl : isHeaderLine l = false)
    (hc : (runLines sc humanOptFlag (initWith cpgTab cpgStartTab genSeq chrMap) pre).contFlag
      = true) :
    scans (runLines sc humanOptFlag (initWith cpgTab cpgStartTab genSeq chrMap)
        (pre ++ [l])).trace
      = scans (runLines sc humanOptFlag (initWith cpgTab cpgStartTab genSeq chrMap) pre).trace
        ++ [(l, (runLines sc humanOptFlag (initWith cpgTab cpgStartTab genSeq chrMap) pre).lastC,
            acceptedCount humanOptFlag pre % 2 ^ 8)]
    ∧ 0 < acceptedCount humanOptFlag pre
    ∧ (insertKeys (runLines sc humanOptFlag (initWith cpgTab cpgStartTab genSeq chrMap)
        pre).trace).getLast? = some ((acceptedCount humanOptFlag pre - 1) % 2 ^ 8)
    ∧ acceptedCount humanOptFlag pre % 2 ^ 8
      = ((acceptedCount humanOptFlag pre - 1) % 2 ^ 8 + 1) % 2 ^ 8
    ∧ (∀ r : Str, isRejected humanOptFlag r = true →
        (runLines sc humanOptFlag (initWith cpgTab cpgStartTab genSeq chrMap)
          (pre ++ [r])).chrIndex
        = (runLines sc humanOptFlag (initWith cpgTab cpgStartTab genSeq chrMap) pre).chrIndex) := by
  have hinv := Inv_runLines_initWith sc humanOptFlag cpgTab cpgStartTab genSeq chrMap pre
  have hpos := live_accepted_pos sc humanOptFlag cpgTab cpgStartTab genSeq chrMap pre hc
  have hidx : (runLines sc humanOptFlag (initWith cpgTab cpgStartTab genSeq chrMap) pre).chrIndex
      < 2 ^ 8 := by
    rw [hinv.idx]; exact Nat.mod_lt _ (by decide)
  refine ⟨?_, hpos, ?_, by omega, fun r hr => ?_⟩
  · rw [runLines_append, runLines_cons, runLines_nil,
      (step_nonheader_live_fields sc humanOptFlag _ l hl hc).2.2.2.2.1, scans_append, hinv.idx]
    rfl
  · rw [hinv.keys]
    obtain ⟨n, hn⟩ : ∃ n, acceptedCount humanOptFlag pre = n + 1 := ⟨_, (Nat.sub_add_cancel hpos).symm⟩
    rw [hn, List.range_succ, List.map_append]
    simp
  · rw [runLines_append, runLines_cons, runLines_nil]
    exact (step_rejected_fields sc humanOptFlag _ r hr hidx).2.1

/-- C19 at a concrete input: the line `GT` of the second accepted record, which follows a
rejected record, is scanned with record number 2. -/
theorem C19_record_number_passed_to_scanner_witness :
    isHeaderLine "GT".toList = false
    ∧ (runLines appendScanner true (initWith [] [] [] [])
        [">chr1".toList, "AC".toList, ">chrUn".toList, "TC".toList, ">chr2".toList]).contFlag
      = true
    ∧ scans (runLines appendScanner true (initWith [] [] [] [])
        ([">chr1".toList, "AC".toList, ">chrUn".toList, "TC".toList, ">chr2".toList]
          ++ ["GT".toList])).trace
      = [("AC".toList, false, 1), ("GT".toList, false, 2)] :=
  ⟨by decide, by decide,
    ((C19_record_number_passed_to_scanner appendScanner true [] [] [] []
      [">chr1".toList, "AC".toList, ">chrUn".toList, "TC".toList, ">chr2".toList] "GT".toList
      (by decide) (by decide)).1).trans (by decide)⟩

end FAME
